import Mathlib

/-!
# Hot-plug reader search of pcsc-lite on Mac OS X

A shallow embedding of `src/PCSC/hotplug_macosx.c` and the properties proved about it.

Conventions of the embedding.

* C unsigned integers are natural numbers; a value stored in a `UInt32` (`UInt16`) object is
  reduced modulo `2 ^ 32` (`2 ^ 16`) where it is stored.
* A `char*` field is an `Option String`; `none` is the null pointer.
* The singly linked `HPDeviceList` is a `List HPDevice`, head first, `m_next` being the tail.
* What Core Foundation and IOKit report (the bundles of the drop directory, the devices an
  iterator yields, the failures of those calls) is an explicit argument, `HostView`.
* The reader factory (`RFAddReader`, `RFRemoveReader`, declared in `readerfactory.h`) is an
  explicit argument with a state of its own; its return values are available to the code,
  which is how the embedding shows that they are dropped.
* Functions that can reach undefined behaviour (`strdup` of a null pointer in `HPDriverCopy`)
  return an `Option`; `none` says that the C program has no defined result there.
* `calloc` and `strdup` of a string are taken to succeed, and `CFStringGetCStringPtr` to
  return a string.
-/

namespace HotplugMacOSX

/-! ## Data model -/

/-- The constant `PCSCLITE_HP_BASE_PORT`. -/
def PCSCLITE_HP_BASE_PORT : Nat := 0x200000

/-- The default name `HPDriversGetFromDirectory` gives a bundle without `ifdFriendlyName`. -/
def unnamedDevice : String := "unnamed device"

/-- Value held by a `UInt32` object after storing `n`. -/
def toUInt32 (n : Nat) : Nat := n % 2 ^ 32

/-- Value held by a `UInt16` object after storing `n`. -/
def toUInt16 (n : Nat) : Nat := n % 2 ^ 16

/-- The struct `HPDriver`: one driver bundle of the drop directory. -/
structure HPDriver where
  m_vendorId : Nat
  m_productId : Nat
  m_friendlyName : Option String
  m_libPath : Option String
  deriving DecidableEq, Repr

/-- The struct `HPDevice` without its `m_next` link: one matched reader device. The record
owns the driver copy made by `HPDriverCopy`. -/
structure HPDevice where
  m_driver : HPDriver
  m_address : Nat
  deriving DecidableEq, Repr

/-- The type `HPDeviceList`: the chain of `m_next` links, head first. -/
abbrev HPDeviceList := List HPDevice

/-- The type `HPDriverVector`: slots `0 .. bundleArraySize - 1` of the vector allocated by
`HPDriversGetFromDirectory`. Slot `bundleArraySize` of the allocation is never written and
stays zeroed, so the end of the list stands for that terminating slot. -/
abbrev HPDriverVector := List HPDriver

/-- A slot as `calloc` leaves it. -/
def HPDriver.zeroed : HPDriver := ⟨0, 0, none, none⟩

/-! ## The host as the code sees it -/

/-- One bundle of the drop directory. `bundlePath` is the text of `CFURLCopyPath`; the two
identity fields are `none` when `CFDictionaryGetValue` finds no such key and otherwise hold
the number `strtoul(text, NULL, 16)` returns for the text of the key. -/
structure Bundle where
  bundlePath : String
  ifdVendorID : Option Nat
  ifdProductID : Option Nat
  ifdFriendlyName : Option String
  deriving DecidableEq, Repr

/-- One device the `IOUSBDevice` iterator yields: the values written by `GetDeviceVendor`,
`GetDeviceProduct` and `GetLocationID`. -/
structure USBDevice where
  idVendor : Nat
  idProduct : Nat
  locationID : Nat
  deriving DecidableEq, Repr

/-- One device the `IOPCCard16Device` iterator yields: the registry properties `VendorID`,
`DeviceID` and `SocketNumber`, `none` when `IORegistryEntryCreateCFProperty` returns null. -/
structure PCCardDevice where
  VendorID : Option Nat
  DeviceID : Option Nat
  SocketNumber : Option Nat
  deriving DecidableEq, Repr

/-- What one rescan finds on the host.

* `dropDir` is `none` when the plugin URL or the bundle array cannot be created.
* `usb` and `pccard` are `none` when `IOServiceMatching` or `IOServiceGetMatchingServices`
  fails; otherwise they list what the iterator yields, an entry being `none` when one of the
  per-device calls that make the function `return 1` fails. -/
structure HostView where
  dropDir : Option (List Bundle)
  usb : Option (List (Option USBDevice))
  pccard : Option (List (Option PCCardDevice))

/-! ## The reader factory -/

/-- A call made to the reader factory. -/
inductive ReaderCall where
  | RFAddReader (name : Option String) (port : Nat) (library : Option String)
  | RFRemoveReader (name : Option String) (port : Nat)
  deriving DecidableEq, Repr

/-- The two entry points of the reader factory over a state `σ`; each returns its `LONG`
result and the next state. -/
structure ReaderFactory (σ : Type) where
  RFAddReader : Option String → Nat → Option String → σ → Int × σ
  RFRemoveReader : Option String → Nat → σ → Int × σ

/-- The same factory, keeping the sequence of calls it receives next to its state. -/
def ReaderFactory.recording {σ : Type} (rf : ReaderFactory σ) :
    ReaderFactory (σ × List ReaderCall) where
  RFAddReader name port library st :=
    ((rf.RFAddReader name port library st.1).1,
      ((rf.RFAddReader name port library st.1).2,
        st.2 ++ [ReaderCall.RFAddReader name port library]))
  RFRemoveReader name port st :=
    ((rf.RFRemoveReader name port st.1).1,
      ((rf.RFRemoveReader name port st.1).2, st.2 ++ [ReaderCall.RFRemoveReader name port]))

/-- A factory without state that answers every call with `result`. -/
def ReaderFactory.constant (result : Int) : ReaderFactory Unit where
  RFAddReader _ _ _ st := (result, st)
  RFRemoveReader _ _ st := (result, st)

/-- Whether a call is an `RFAddReader`. -/
def ReaderCall.isAdd : ReaderCall → Bool
  | .RFAddReader _ _ _ => true
  | .RFRemoveReader _ _ => false

/-- Whether a call is an `RFRemoveReader`. -/
def ReaderCall.isRemove : ReaderCall → Bool
  | .RFAddReader _ _ _ => false
  | .RFRemoveReader _ _ => true

/-- The port argument of a call. -/
def ReaderCall.port : ReaderCall → Nat
  | .RFAddReader _ port _ => port
  | .RFRemoveReader _ port => port

/-! ## The code -/

/-- The `for` loop of `HPDriversGetFromDirectory` from some index `i` on: the argument lists
bundles `i, i + 1, ...`, the result slots `i, i + 1, ...` of the vector at the moment the
function returns. A bundle without `ifdVendorID` or `ifdProductID` makes the function
`return bundleVector` at once, the slot written so far and the later slots left zeroed. -/
def fillDriverVector : List Bundle → List HPDriver
  | [] => []
  | b :: rest =>
    match b.ifdVendorID with
    | none => ⟨0, 0, none, some b.bundlePath⟩ :: rest.map (fun _ => HPDriver.zeroed)
    | some v =>
      match b.ifdProductID with
      | none =>
        ⟨toUInt32 v, 0, none, some b.bundlePath⟩ :: rest.map (fun _ => HPDriver.zeroed)
      | some p =>
        ⟨toUInt32 v, toUInt32 p, some (b.ifdFriendlyName.getD unnamedDevice),
          some b.bundlePath⟩ :: fillDriverVector rest

/-- The function `HPDriversGetFromDirectory`: `none` is the null pointer it returns. -/
def HPDriversGetFromDirectory (dropDir : Option (List Bundle)) : Option HPDriverVector :=
  match dropDir with
  | none => none
  | some bundleArray => some (fillDriverVector bundleArray)

/-- The function `HPDriverCopy` on a non-null argument. The two `strdup` calls need strings;
`none` is the undefined behaviour of `strdup` on a null pointer. -/
def HPDriverCopy (rhs : HPDriver) : Option HPDriver :=
  match rhs.m_friendlyName, rhs.m_libPath with
  | some name, some path => some ⟨rhs.m_vendorId, rhs.m_productId, some name, some path⟩
  | _, _ => none

/-- The function `HPDeviceListInsert`: the new record goes in front of `list`. -/
def HPDeviceListInsert (list : HPDeviceList) (bundle : HPDriver) (address : Nat) :
    Option HPDeviceList :=
  match HPDriverCopy bundle with
  | none => none
  | some driver => some (⟨driver, address⟩ :: list)

/-- The function `HPDeviceEquals`. -/
def HPDeviceEquals (a b : HPDevice) : Bool :=
  (a.m_driver.m_vendorId == b.m_driver.m_vendorId)
    && (a.m_driver.m_productId == b.m_driver.m_productId)
    && (a.m_address == b.m_address)

/-- The loop `for (; driver->m_vendorId; ++driver)` that `HPDriversMatchUSBDevices` and
`HPDriversMatchPCCardDevices` both run for one device: it walks the vector up to the first
slot whose `m_vendorId` is zero and inserts a record for every slot whose vendor and product
equal those of the device. -/
def matchDriverLoop (vendorId productId address : Nat) :
    List HPDriver → HPDeviceList → Option HPDeviceList
  | [], readerList => some readerList
  | driver :: rest, readerList =>
    if driver.m_vendorId = 0 then some readerList
    else if driver.m_vendorId = vendorId ∧ driver.m_productId = productId then
      match HPDeviceListInsert readerList driver address with
      | none => none
      | some inserted => matchDriverLoop vendorId productId address rest inserted
    else matchDriverLoop vendorId productId address rest readerList

/-- The `while` loop of `HPDriversMatchUSBDevices` over what the iterator yields. The result
pairs the `int` the function returns with `*readerList`. Vendor and product are `UInt16`
objects, the address a `UInt32`. -/
def usbDeviceLoop (driverBundle : HPDriverVector) :
    List (Option USBDevice) → HPDeviceList → Option (Int × HPDeviceList)
  | [], readerList => some (0, readerList)
  | none :: _, readerList => some (1, readerList)
  | some dev :: rest, readerList =>
    match matchDriverLoop (toUInt16 dev.idVendor) (toUInt16 dev.idProduct)
        (toUInt32 dev.locationID) driverBundle readerList with
    | none => none
    | some matched => usbDeviceLoop driverBundle rest matched

/-- The function `HPDriversMatchUSBDevices`. -/
def HPDriversMatchUSBDevices (driverBundle : HPDriverVector) (readerList : HPDeviceList)
    (usb : Option (List (Option USBDevice))) : Option (Int × HPDeviceList) :=
  match usb with
  | none => some (1, readerList)
  | some yielded => usbDeviceLoop driverBundle yielded readerList

/-- The `while` loop of `HPDriversMatchPCCardDevices`. The three values are `UInt32` objects
initialised to zero and written only when the property exists. -/
def pccardDeviceLoop (driverBundle : HPDriverVector) :
    List (Option PCCardDevice) → HPDeviceList → Option (Int × HPDeviceList)
  | [], readerList => some (0, readerList)
  | none :: _, readerList => some (1, readerList)
  | some dev :: rest, readerList =>
    match matchDriverLoop (toUInt32 (dev.VendorID.getD 0)) (toUInt32 (dev.DeviceID.getD 0))
        (toUInt32 (dev.SocketNumber.getD 0)) driverBundle readerList with
    | none => none
    | some matched => pccardDeviceLoop driverBundle rest matched

/-- The function `HPDriversMatchPCCardDevices`. -/
def HPDriversMatchPCCardDevices (driverBundle : HPDriverVector) (readerList : HPDeviceList)
    (pccard : Option (List (Option PCCardDevice))) : Option (Int × HPDeviceList) :=
  match pccard with
  | none => some (1, readerList)
  | some yielded => pccardDeviceLoop driverBundle yielded readerList

/-- The inner loop of the first diff loop of `HPSearchHotPluggables`: the value of `found`
after comparing `a` with the records `b` of `list` by `HPDeviceEquals(a, b)`. -/
def deviceFound (a : HPDevice) : HPDeviceList → Bool
  | [] => false
  | b :: rest => if HPDeviceEquals a b then true else deviceFound a rest

/-- The first diff loop of `HPSearchHotPluggables`: `RFAddReader` for every record of
`devices` not found in `sDeviceList`. The sum for the port is formed in `UInt32`. The result
of the call is dropped. -/
def addLoop {σ : Type} (rf : ReaderFactory σ) (sDeviceList : HPDeviceList) :
    HPDeviceList → σ → σ
  | [], reg => reg
  | a :: rest, reg =>
    if deviceFound a sDeviceList then addLoop rf sDeviceList rest reg
    else
      addLoop rf sDeviceList rest
        (rf.RFAddReader a.m_driver.m_friendlyName
          (toUInt32 (PCSCLITE_HP_BASE_PORT + a.m_address)) a.m_driver.m_libPath reg).2

/-- The second diff loop of `HPSearchHotPluggables`: `RFRemoveReader` for every record of
`sDeviceList` not found in `devices`. The result of the call is dropped. -/
def removeLoop {σ : Type} (rf : ReaderFactory σ) (devices : HPDeviceList) :
    HPDeviceList → σ → σ
  | [], reg => reg
  | a :: rest, reg =>
    if deviceFound a devices then removeLoop rf devices rest reg
    else
      removeLoop rf devices rest
        (rf.RFRemoveReader a.m_driver.m_friendlyName
          (toUInt32 (PCSCLITE_HP_BASE_PORT + a.m_address)) reg).2

/-- What one call of `HPSearchHotPluggables` leaves behind: the `LONG` it returns, the global
`sDeviceList` and the state of the reader factory. -/
structure Outcome (σ : Type) where
  status : Int
  sDeviceList : HPDeviceList
  registry : σ
  deriving DecidableEq

/-- The function `HPSearchHotPluggables`, run on the host view `host` with the global
`sDeviceList` and the reader factory in state `reg`. -/
def HPSearchHotPluggables {σ : Type} (rf : ReaderFactory σ) (host : HostView)
    (sDeviceList : HPDeviceList) (reg : σ) : Option (Outcome σ) :=
  match HPDriversGetFromDirectory host.dropDir with
  | none => some ⟨1, sDeviceList, reg⟩
  | some drivers =>
    match HPDriversMatchUSBDevices drivers [] host.usb with
    | none => none
    | some (usbStat, usbDevices) =>
      if usbStat ≠ 0 then some ⟨-1, sDeviceList, reg⟩
      else
        match HPDriversMatchPCCardDevices drivers usbDevices host.pccard with
        | none => none
        | some (pccStat, devices) =>
          if pccStat ≠ 0 then some ⟨-1, sDeviceList, reg⟩
          else
            some ⟨0, devices,
              removeLoop rf devices sDeviceList (addLoop rf sDeviceList devices reg)⟩

/-! ## Descriptions used in the statements -/

/-- The slots of a driver vector the match loop visits: those before the first slot whose
`m_vendorId` is zero. -/
def scannedDrivers : List HPDriver → List HPDriver
  | [] => []
  | driver :: rest => if driver.m_vendorId = 0 then [] else driver :: scannedDrivers rest

/-- The `RFAddReader` call for a record. -/
def addCall (a : HPDevice) : ReaderCall :=
  .RFAddReader a.m_driver.m_friendlyName (toUInt32 (PCSCLITE_HP_BASE_PORT + a.m_address))
    a.m_driver.m_libPath

/-- The `RFRemoveReader` call for a record. -/
def removeCall (a : HPDevice) : ReaderCall :=
  .RFRemoveReader a.m_driver.m_friendlyName (toUInt32 (PCSCLITE_HP_BASE_PORT + a.m_address))

/-- Some record of `list` equals `a` under `HPDeviceEquals`. -/
def hasEqual (a : HPDevice) (list : HPDeviceList) : Prop :=
  ∃ b ∈ list, HPDeviceEquals a b = true

instance (a : HPDevice) (list : HPDeviceList) : Decidable (hasEqual a list) := by
  unfold hasEqual; infer_instance

/-- The records of `list` that have no equal record in `other`, in the order of `list`. -/
def withoutEqualIn (other list : HPDeviceList) : HPDeviceList :=
  list.filter (fun a => decide (¬ hasEqual a other))

/-- The calls the two diff loops make for a previous list and a newly matched list. -/
def diffCalls (sDeviceList devices : HPDeviceList) : List ReaderCall :=
  (withoutEqualIn sDeviceList devices).map addCall
    ++ (withoutEqualIn devices sDeviceList).map removeCall

/-- The records the match loop is to insert for a device with the given vendor, product and
address: one for each visited slot with that vendor and product, in the order of the vector,
each holding the slot as its driver. -/
def matchedRecords (vendorId productId address : Nat) (drivers : List HPDriver) :
    HPDeviceList :=
  ((scannedDrivers drivers).filter
    (fun d => decide (d.m_vendorId = vendorId ∧ d.m_productId = productId))).map
      (fun d => ⟨d, address⟩)

/-- Both strings of a slot are present, which is what `HPDriverCopy` needs. -/
def hasStrings (d : HPDriver) : Bool := d.m_friendlyName.isSome && d.m_libPath.isSome

/-- Vendor, product and address as `HPDriversMatchUSBDevices` reads them from a device. -/
def usbTriple (dev : USBDevice) : Nat × Nat × Nat :=
  (toUInt16 dev.idVendor, toUInt16 dev.idProduct, toUInt32 dev.locationID)

/-- Vendor, product and address as `HPDriversMatchPCCardDevices` reads them from a device. -/
def pccardTriple (dev : PCCardDevice) : Nat × Nat × Nat :=
  (toUInt32 (dev.VendorID.getD 0), toUInt32 (dev.DeviceID.getD 0),
    toUInt32 (dev.SocketNumber.getD 0))

/-- The devices present on a host, USB first, each as its vendor, product and address. -/
def presentDevices (host : HostView) : List (Nat × Nat × Nat) :=
  ((host.usb.getD []).filterMap id).map usbTriple
    ++ ((host.pccard.getD []).filterMap id).map pccardTriple

/-- No two records of the list are equal under `HPDeviceEquals`. -/
def noEqualRecords (list : HPDeviceList) : Prop :=
  list.Pairwise (fun a b => HPDeviceEquals a b = false)

/-- The records matched for a device given as its vendor, product and address. -/
def recordsFor (drivers : List HPDriver) (t : Nat × Nat × Nat) : HPDeviceList :=
  matchedRecords t.1 t.2.1 t.2.2 drivers

/-- A sequence of calls of `HPSearchHotPluggables`, one for each host view of the list, in
order: the global `sDeviceList` and the state of the reader factory left by one call are what
the next call starts from. The result is the list and the factory state after the last
call. -/
def runRescans {σ : Type} (rf : ReaderFactory σ) :
    List HostView → HPDeviceList → σ → Option (HPDeviceList × σ)
  | [], sDeviceList, reg => some (sDeviceList, reg)
  | host :: later, sDeviceList, reg =>
    match HPSearchHotPluggables rf host sDeviceList reg with
    | none => none
    | some out => runRescans rf later out.sDeviceList out.registry

/-- The friendly name and the port that the calls made for a record carry. -/
def readerKey (a : HPDevice) : Option String × Nat :=
  (a.m_driver.m_friendlyName, toUInt32 (PCSCLITE_HP_BASE_PORT + a.m_address))

/-- Replays a sequence of calls on the collection `added` of the name and port pairs that
were added and not removed since: an `RFAddReader` puts its pair in, an `RFRemoveReader`
takes one occurrence of its pair out and is in order only when there is one. The result is
`none` when some `RFRemoveReader` finds no such pair, else the collection at the end. -/
def replayCalls :
    List (Option String × Nat) → List ReaderCall → Option (List (Option String × Nat))
  | added, [] => some added
  | added, .RFAddReader name port _ :: later => replayCalls ((name, port) :: added) later
  | added, .RFRemoveReader name port :: later =>
    if (name, port) ∈ added then replayCalls (added.erase (name, port)) later else none

/-- Every `RFRemoveReader` of the sequence comes after an `RFAddReader` of the same name and
port that no `RFRemoveReader` in between has taken. -/
def removesFollowAdds (calls : List ReaderCall) : Bool := (replayCalls [] calls).isSome

/-- Every present device is matched by at most one visited descriptor of the catalog, and
no two present devices that are matched at all agree in vendor, product and address. -/
def singlyMatched (drivers : List HPDriver) (present : List (Nat × Nat × Nat)) : Prop :=
  (∀ t ∈ present, (recordsFor drivers t).length ≤ 1)
    ∧ (present.filter (fun t => decide (recordsFor drivers t ≠ []))).Nodup

instance (drivers : List HPDriver) (present : List (Nat × Nat × Nat)) :
    Decidable (singlyMatched drivers present) := by
  unfold singlyMatched; infer_instance

/-- The records of `list` that have an equal record in `other`, in the order of `list`. -/
def withEqualIn (other list : HPDeviceList) : HPDeviceList :=
  list.filter (fun a => decide (hasEqual a other))

/-- No reader changes its name or gains a copy while its device stays attached, from the
stored list `sDeviceList` to the matched list `devices`: every name and port pair carried by
the matched records that have an equal record in the stored list is carried at least as
often by the stored records that have an equal record in the matched list. -/
def keepsReaders (sDeviceList devices : HPDeviceList) : Bool :=
  ((withEqualIn sDeviceList devices).map readerKey).all
    (fun x => decide
      (List.count x ((withEqualIn sDeviceList devices).map readerKey)
        ≤ List.count x ((withEqualIn devices sDeviceList).map readerKey)))

/-- Every rescan of the sequence, started from the list its predecessor stored, keeps the
readers of the devices that stay attached in the sense of `keepsReaders`. The stored lists
do not depend on the reader factory, so they are computed with the constant one. -/
def keptThroughout : List HostView → HPDeviceList → Bool
  | [], _ => true
  | host :: later, sDeviceList =>
    match HPSearchHotPluggables (ReaderFactory.constant 0) host sDeviceList () with
    | none => true
    | some out =>
      keepsReaders sDeviceList out.sDeviceList && keptThroughout later out.sDeviceList

/-! ## Concrete inputs -/

/-- The driver of the scenario: vendor `0x04E6`, product `0x5116`, name `ReaderX`. -/
def readerX : HPDriver := ⟨0x04E6, 0x5116, some "ReaderX", some "/a"⟩

/-- The bundle that yields `readerX`. -/
def readerXBundle : Bundle := ⟨"/a", some 0x04E6, some 0x5116, some "ReaderX"⟩

/-- The host with the `readerX` bundle and one matching USB device at address `1`. -/
def hostAttached : HostView :=
  ⟨some [readerXBundle], some [some ⟨0x04E6, 0x5116, 1⟩], some []⟩

/-- The record matched on `hostAttached`. -/
def readerXAt1 : HPDevice := ⟨readerX, 1⟩

/-- The recording factory that answers every call with `0`. -/
def recorder : ReaderFactory (Unit × List ReaderCall) := (ReaderFactory.constant 0).recording

/-- The `readerX` device at address `1` as a later catalog would name it: same vendor,
product and address, other name and library. -/
def renamedAt1 : HPDevice := ⟨⟨0x04E6, 0x5116, some "ReaderY", some "/b"⟩, 1⟩

/-- A host whose USB iterator fails on its second device. -/
def hostUSBFails : HostView :=
  ⟨some [readerXBundle], some [some ⟨0x04E6, 0x5116, 2⟩, none], some []⟩

/-- A bundle whose `ifdVendorID` reads as zero. -/
def zeroVendorBundle : Bundle := ⟨"/z", some 0, some 0x5116, some "Zero"⟩

/-- The slot `zeroVendorBundle` yields. -/
def zeroVendor : HPDriver := ⟨0, 0x5116, some "Zero", some "/z"⟩

/-- A bundle without the `ifdVendorID` key. -/
def noVendorBundle : Bundle := ⟨"/b", none, some 0x5116, some "NoVendor"⟩

/-- A bundle without the `ifdProductID` key. -/
def noProductBundle : Bundle := ⟨"/c", some 0x04E6, none, some "NoProduct"⟩

/-- A host whose drop directory lists a bundle without `ifdVendorID` before the `readerX`
bundle, the `readerX` device being attached at address `1`. -/
def hostBrokenBundle : HostView :=
  ⟨some [noVendorBundle, readerXBundle], some [some ⟨0x04E6, 0x5116, 1⟩], some []⟩

/-- A second driver for the device of `readerX`: same vendor and product, other name. -/
def readerY : HPDriver := ⟨0x04E6, 0x5116, some "ReaderY", some "/b"⟩

/-- A driver for another device. -/
def otherDriver : HPDriver := ⟨0x0001, 0x0002, some "Other", some "/o"⟩

/-- The host of the scenario with the vendor reading as zero: the `zeroVendorBundle` alone
and one USB device with vendor `0`, product `0x5116`, address `1`. -/
def hostZeroVendor : HostView := ⟨some [zeroVendorBundle], some [some ⟨0, 0x5116, 1⟩], some []⟩

/-- The bundle that yields `readerY`. -/
def readerYBundle : Bundle := ⟨"/b", some 0x04E6, some 0x5116, some "ReaderY"⟩

/-- A host whose catalog holds two drivers with the vendor and product of the one attached
device. -/
def hostTwoDrivers : HostView :=
  ⟨some [readerXBundle, readerYBundle], some [some ⟨0x04E6, 0x5116, 1⟩], some []⟩

/-- The host with the `readerX` bundle and no device. -/
def hostDetached : HostView := ⟨some [readerXBundle], some [], some []⟩

/-- The `readerX` bundle after its `ifdFriendlyName` was changed to `ReaderY`. -/
def renamedBundle : Bundle := ⟨"/a", some 0x04E6, some 0x5116, some "ReaderY"⟩

/-- The host after the rename, the device still attached at address `1`. -/
def hostRenamedAttached : HostView :=
  ⟨some [renamedBundle], some [some ⟨0x04E6, 0x5116, 1⟩], some []⟩

/-- The host after the rename, the device detached. -/
def hostRenamedDetached : HostView := ⟨some [renamedBundle], some [], some []⟩

/-- A second bundle with the vendor, product and name of `readerXBundle`. -/
def readerXTwinBundle : Bundle := ⟨"/a2", some 0x04E6, some 0x5116, some "ReaderX"⟩

/-- The host with the `readerX` bundle and its twin, the device attached at address `1`. -/
def hostTwinDrivers : HostView :=
  ⟨some [readerXBundle, readerXTwinBundle], some [some ⟨0x04E6, 0x5116, 1⟩], some []⟩

/-- The host with the `readerX` bundle, a USB device at address `1` and a PC Card device of
the same vendor and product in socket `1`. -/
def hostBothBuses : HostView :=
  ⟨some [readerXBundle], some [some ⟨0x04E6, 0x5116, 1⟩],
    some [some ⟨some 0x04E6, some 0x5116, some 1⟩]⟩

/-- The bundle that yields `otherDriver`. -/
def otherBundle : Bundle := ⟨"/o", some 0x0001, some 0x0002, some "Other"⟩

/-- A second bundle with the vendor and product of `otherBundle`. -/
def otherTwinBundle : Bundle := ⟨"/o2", some 0x0001, some 0x0002, some "Other2"⟩

/-- A host with three bundles, two of them for one vendor and product that no present device
has, two USB devices of the `readerX` kind at addresses `1` and `2`, and two PC Card devices
without any of the three properties. -/
def hostBusy : HostView :=
  ⟨some [readerXBundle, otherBundle, otherTwinBundle],
    some [some ⟨0x04E6, 0x5116, 1⟩, some ⟨0x04E6, 0x5116, 2⟩],
    some [some ⟨none, none, none⟩, some ⟨none, none, none⟩]⟩

/-- The host of `hostTwoDrivers` with a second device of the same kind at address `2`. -/
def hostTwoDriversTwoDevices : HostView :=
  ⟨some [readerXBundle, readerYBundle],
    some [some ⟨0x04E6, 0x5116, 1⟩, some ⟨0x04E6, 0x5116, 2⟩], some []⟩

/-- A sequence of eight rescans: a device appears under a catalog with two descriptors for
it, a second device appears, a rescan fails, both devices go; the bundle is renamed while no
device is attached, the device appears and goes under the new name; a USB and a PC Card
device of one vendor, product and address appear together and go together. -/
def witnessRescans : List HostView :=
  [hostTwoDrivers, hostTwoDriversTwoDevices, hostUSBFails, hostDetached,
    hostRenamedAttached, hostRenamedDetached, hostBothBuses, hostDetached]

/-- The calls of `witnessRescans`. -/
def witnessCalls : List ReaderCall :=
  [.RFAddReader (some "ReaderY") 0x200001 (some "/b"),
    .RFAddReader (some "ReaderX") 0x200001 (some "/a"),
    .RFAddReader (some "ReaderY") 0x200002 (some "/b"),
    .RFAddReader (some "ReaderX") 0x200002 (some "/a"),
    .RFRemoveReader (some "ReaderY") 0x200002,
    .RFRemoveReader (some "ReaderX") 0x200002,
    .RFRemoveReader (some "ReaderY") 0x200001,
    .RFRemoveReader (some "ReaderX") 0x200001,
    .RFAddReader (some "ReaderY") 0x200001 (some "/a"),
    .RFRemoveReader (some "ReaderY") 0x200001,
    .RFAddReader (some "ReaderX") 0x200001 (some "/a"),
    .RFAddReader (some "ReaderX") 0x200001 (some "/a"),
    .RFRemoveReader (some "ReaderX") 0x200001,
    .RFRemoveReader (some "ReaderX") 0x200001]

/-! ## Lemmas on the diff loops -/

theorem HPDeviceEquals_iff (a b : HPDevice) :
    HPDeviceEquals a b = true ↔
      a.m_driver.m_vendorId = b.m_driver.m_vendorId
        ∧ a.m_driver.m_productId = b.m_driver.m_productId ∧ a.m_address = b.m_address := by
  simp [HPDeviceEquals, and_assoc]

theorem HPDeviceEquals_self (a : HPDevice) : HPDeviceEquals a a = true := by
  simp [HPDeviceEquals]

theorem HPDeviceEquals_comm (a b : HPDevice) : HPDeviceEquals a b = HPDeviceEquals b a := by
  rw [Bool.eq_iff_iff, HPDeviceEquals_iff, HPDeviceEquals_iff]
  constructor <;> rintro ⟨h1, h2, h3⟩ <;> exact ⟨h1.symm, h2.symm, h3.symm⟩

theorem deviceFound_iff (a : HPDevice) (list : HPDeviceList) :
    deviceFound a list = true ↔ hasEqual a list := by
  induction list with
  | nil => simp [deviceFound, hasEqual]
  | cons b rest ih =>
    unfold deviceFound
    by_cases h : HPDeviceEquals a b = true
    · simp [h, hasEqual]
    · have hcons : hasEqual a (b :: rest) ↔ hasEqual a rest := by simp [hasEqual, h]
      rw [hcons, ← ih]
      simp [h]

theorem withoutEqualIn_eq (other list : HPDeviceList) :
    withoutEqualIn other list = list.filter (fun a => !deviceFound a other) := by
  unfold withoutEqualIn
  apply List.filter_congr
  intro a _
  by_cases h : deviceFound a other = true
  · simp [h, (deviceFound_iff a other).1 h]
  · have h2 : ¬ hasEqual a other := fun hh => h ((deviceFound_iff a other).2 hh)
    simp [h, h2]

theorem recording_RFAddReader {σ : Type} (rf : ReaderFactory σ) (name : Option String)
    (port : Nat) (library : Option String) (st : σ) (log : List ReaderCall) :
    (rf.recording.RFAddReader name port library (st, log)).2
      = ((rf.RFAddReader name port library st).2,
          log ++ [ReaderCall.RFAddReader name port library]) := rfl

theorem recording_RFRemoveReader {σ : Type} (rf : ReaderFactory σ) (name : Option String)
    (port : Nat) (st : σ) (log : List ReaderCall) :
    (rf.recording.RFRemoveReader name port (st, log)).2
      = ((rf.RFRemoveReader name port st).2, log ++ [ReaderCall.RFRemoveReader name port]) :=
  rfl

theorem addLoop_recording {σ : Type} (rf : ReaderFactory σ) (sDeviceList : HPDeviceList)
    (devices : HPDeviceList) (st : σ) (log : List ReaderCall) :
    addLoop rf.recording sDeviceList devices (st, log)
      = (addLoop rf sDeviceList devices st,
          log ++ (withoutEqualIn sDeviceList devices).map addCall) := by
  rw [withoutEqualIn_eq]
  induction devices generalizing st log with
  | nil => simp [addLoop]
  | cons a rest ih =>
    by_cases h : deviceFound a sDeviceList = true
    · simp [addLoop, h, ih]
    · simp [addLoop, h, ih, recording_RFAddReader, addCall]

theorem removeLoop_recording {σ : Type} (rf : ReaderFactory σ) (devices : HPDeviceList)
    (sDeviceList : HPDeviceList) (st : σ) (log : List ReaderCall) :
    removeLoop rf.recording devices sDeviceList (st, log)
      = (removeLoop rf devices sDeviceList st,
          log ++ (withoutEqualIn devices sDeviceList).map removeCall) := by
  rw [withoutEqualIn_eq]
  induction sDeviceList generalizing st log with
  | nil => simp [removeLoop]
  | cons a rest ih =>
    by_cases h : deviceFound a devices = true
    · simp [removeLoop, h, ih]
    · simp [removeLoop, h, ih, recording_RFRemoveReader, removeCall]

/-- Both diff loops in sequence against a recording factory: the factory state is that of
the plain run and the log grows by `diffCalls`. -/
theorem diff_recording {σ : Type} (rf : ReaderFactory σ) (sDeviceList devices : HPDeviceList)
    (st : σ) (log : List ReaderCall) :
    removeLoop rf.recording devices sDeviceList
        (addLoop rf.recording sDeviceList devices (st, log))
      = (removeLoop rf devices sDeviceList (addLoop rf sDeviceList devices st),
          log ++ diffCalls sDeviceList devices) := by
  rw [addLoop_recording, removeLoop_recording, diffCalls, List.append_assoc]

/-- A rescan whose catalog load and two enumerations succeed is the diff of the previous
list against the matched list. -/
theorem search_of_matched {σ : Type} (rf : ReaderFactory σ) (host : HostView)
    (sDeviceList : HPDeviceList) (reg : σ) (drivers : HPDriverVector)
    (usbDevices devices : HPDeviceList)
    (hload : HPDriversGetFromDirectory host.dropDir = some drivers)
    (husb : HPDriversMatchUSBDevices drivers [] host.usb = some (0, usbDevices))
    (hpcc : HPDriversMatchPCCardDevices drivers usbDevices host.pccard = some (0, devices)) :
    HPSearchHotPluggables rf host sDeviceList reg
      = some ⟨0, devices,
          removeLoop rf devices sDeviceList (addLoop rf sDeviceList devices reg)⟩ := by
  simp [HPSearchHotPluggables, hload, husb, hpcc]

/-- Every rescan that returns either failed and changed nothing, or loaded a catalog,
enumerated both buses and ran the diff on the matched list. -/
theorem search_cases {σ : Type} (rf : ReaderFactory σ) (host : HostView)
    (sDeviceList : HPDeviceList) (reg : σ) (out : Outcome σ)
    (h : HPSearchHotPluggables rf host sDeviceList reg = some out) :
    (out.status ≠ 0 ∧ out.sDeviceList = sDeviceList ∧ out.registry = reg)
      ∨ ∃ drivers usbDevices,
          HPDriversGetFromDirectory host.dropDir = some drivers
            ∧ HPDriversMatchUSBDevices drivers [] host.usb = some (0, usbDevices)
            ∧ HPDriversMatchPCCardDevices drivers usbDevices host.pccard
                = some (0, out.sDeviceList)
            ∧ out.status = 0
            ∧ out.registry
                = removeLoop rf out.sDeviceList sDeviceList
                    (addLoop rf sDeviceList out.sDeviceList reg) := by
  unfold HPSearchHotPluggables at h
  cases hload : HPDriversGetFromDirectory host.dropDir with
  | none =>
    simp only [hload, Option.some.injEq] at h
    subst h
    exact Or.inl ⟨by simp, rfl, rfl⟩
  | some drivers =>
    simp only [hload] at h
    cases husb : HPDriversMatchUSBDevices drivers [] host.usb with
    | none => simp [husb] at h
    | some r1 =>
      obtain ⟨usbStat, usbDevices⟩ := r1
      simp only [husb] at h
      by_cases hu : usbStat = 0
      · subst hu
        cases hpcc : HPDriversMatchPCCardDevices drivers usbDevices host.pccard with
        | none => simp [hpcc] at h
        | some r2 =>
          obtain ⟨pccStat, devices⟩ := r2
          by_cases hp : pccStat = 0
          · subst hp
            simp [hpcc] at h
            subst h
            exact Or.inr ⟨drivers, usbDevices, rfl, husb, hpcc, rfl, rfl⟩
          · simp [hpcc, hp] at h
            subst h
            exact Or.inl ⟨by simp, rfl, rfl⟩
      · simp [hu] at h
        subst h
        exact Or.inl ⟨by simp, rfl, rfl⟩

/-! ## The diff of a rescan -/

/-- C1: for every previous list `P` and every matched list `C`, the two diff loops of
`HPSearchHotPluggables` call `RFAddReader` for exactly the records of `C` without an
`HPDeviceEquals`-equal record in `P` and `RFRemoveReader` for exactly the records of `P`
without an equal record in `C`, and make no other call; a rescan of a host whose catalog load
and two enumerations succeed with matched list `C` makes exactly these calls; two records are
equal exactly when vendor, product and address agree. -/
theorem diff_notifies_exactly_the_unmatched {σ : Type} (rf : ReaderFactory σ)
    (host : HostView) (P C : HPDeviceList) (st : σ) (log : List ReaderCall)
    (drivers : HPDriverVector) (usbDevices : HPDeviceList)
    (hload : HPDriversGetFromDirectory host.dropDir = some drivers)
    (husb : HPDriversMatchUSBDevices drivers [] host.usb = some (0, usbDevices))
    (hpcc : HPDriversMatchPCCardDevices drivers usbDevices host.pccard = some (0, C)) :
    (∃ out, HPSearchHotPluggables rf.recording host P (st, log) = some out
        ∧ out.registry.2
            = log ++ (C.filter (fun a => decide (¬ hasEqual a P))).map addCall
                ++ (P.filter (fun a => decide (¬ hasEqual a C))).map removeCall)
      ∧ (∀ (P1 C1 : HPDeviceList) (st1 : σ) (log1 : List ReaderCall),
          (removeLoop rf.recording C1 P1 (addLoop rf.recording P1 C1 (st1, log1))).2
            = log1 ++ (C1.filter (fun a => decide (¬ hasEqual a P1))).map addCall
                ++ (P1.filter (fun a => decide (¬ hasEqual a C1))).map removeCall)
      ∧ ∀ a b : HPDevice, HPDeviceEquals a b = true ↔
          a.m_driver.m_vendorId = b.m_driver.m_vendorId
            ∧ a.m_driver.m_productId = b.m_driver.m_productId
            ∧ a.m_address = b.m_address := by
  refine ⟨⟨_, search_of_matched rf.recording host P (st, log) drivers usbDevices C hload
    husb hpcc, ?_⟩, ?_, HPDeviceEquals_iff⟩
  · simp [diff_recording, diffCalls, withoutEqualIn]
  · intro P1 C1 st1 log1
    simp [diff_recording, diffCalls, withoutEqualIn]

/-- Witness of C1: the first rescan of the scenario, from the empty list. -/
theorem diff_notifies_exactly_the_unmatched_witness :
    HPDriversGetFromDirectory hostAttached.dropDir = some [readerX]
      ∧ HPDriversMatchUSBDevices [readerX] [] hostAttached.usb = some (0, [readerXAt1])
      ∧ HPDriversMatchPCCardDevices [readerX] [readerXAt1] hostAttached.pccard
          = some (0, [readerXAt1])
      ∧ ∃ out, HPSearchHotPluggables recorder hostAttached [] ((), []) = some out
          ∧ out.registry.2
              = [] ++ ([readerXAt1].filter (fun a => decide (¬ hasEqual a []))).map addCall
                  ++ (([] : HPDeviceList).filter
                      (fun a => decide (¬ hasEqual a [readerXAt1]))).map removeCall :=
  ⟨by decide, by decide, by decide,
    (diff_notifies_exactly_the_unmatched (ReaderFactory.constant 0) hostAttached []
      [readerXAt1] () [] [readerX] [readerXAt1] (by decide) (by decide) (by decide)).1⟩

theorem addLoop_of_all {σ : Type} (rf : ReaderFactory σ) (sDeviceList devices : HPDeviceList)
    (reg : σ) (h : ∀ a ∈ devices, hasEqual a sDeviceList) :
    addLoop rf sDeviceList devices reg = reg := by
  induction devices with
  | nil => rfl
  | cons a rest ih =>
    have ha : deviceFound a sDeviceList = true :=
      (deviceFound_iff a sDeviceList).2 (h a (List.mem_cons_self a rest))
    simp only [addLoop, ha, if_true]
    exact ih (fun x hx => h x (List.mem_cons_of_mem a hx))

theorem removeLoop_of_all {σ : Type} (rf : ReaderFactory σ)
    (devices sDeviceList : HPDeviceList) (reg : σ)
    (h : ∀ a ∈ sDeviceList, hasEqual a devices) :
    removeLoop rf devices sDeviceList reg = reg := by
  induction sDeviceList with
  | nil => rfl
  | cons a rest ih =>
    have ha : deviceFound a devices = true :=
      (deviceFound_iff a devices).2 (h a (List.mem_cons_self a rest))
    simp only [removeLoop, ha, if_true]
    exact ih (fun x hx => h x (List.mem_cons_of_mem a hx))

/-- C6: reconciling a list `S` against a matched list `C` that holds the same records under
`HPDeviceEquals` (each record of either list has an equal record in the other, as when `C`
is `S`) makes no `RFAddReader` and no `RFRemoveReader` call: the factory state and the log
of calls stay as they were. -/
theorem diff_of_equal_lists_is_silent {σ : Type} (rf : ReaderFactory σ)
    (S C : HPDeviceList) (st : σ) (log : List ReaderCall)
    (hC : ∀ a ∈ C, hasEqual a S) (hS : ∀ a ∈ S, hasEqual a C) :
    removeLoop rf.recording C S (addLoop rf.recording S C (st, log)) = (st, log)
      ∧ removeLoop rf.recording S S (addLoop rf.recording S S (st, log)) = (st, log) := by
  have hself : ∀ a ∈ S, hasEqual a S := fun a ha => ⟨a, ha, HPDeviceEquals_self a⟩
  constructor
  · rw [addLoop_of_all rf.recording S C (st, log) hC,
      removeLoop_of_all rf.recording C S (st, log) hS]
  · rw [addLoop_of_all rf.recording S S (st, log) hself,
      removeLoop_of_all rf.recording S S (st, log) hself]

/-- Witness of C6: the list holding `readerXAt1` against the list holding the same device
under another name. -/
theorem diff_of_equal_lists_is_silent_witness :
    (∀ a ∈ [renamedAt1], hasEqual a [readerXAt1])
      ∧ (∀ a ∈ [readerXAt1], hasEqual a [renamedAt1])
      ∧ removeLoop recorder [renamedAt1] [readerXAt1]
            (addLoop recorder [readerXAt1] [renamedAt1] ((), [])) = ((), [])
      ∧ removeLoop recorder [readerXAt1] [readerXAt1]
            (addLoop recorder [readerXAt1] [readerXAt1] ((), [])) = ((), []) :=
  ⟨by decide, by decide,
    diff_of_equal_lists_is_silent (ReaderFactory.constant 0) [readerXAt1] [renamedAt1] () []
      (by decide) (by decide)⟩

/-! ## Failed rescans -/

/-- C4: a rescan fails when the catalog load returns no catalog, when the USB enumeration
returns an error, or when the PC Card enumeration returns an error. In each of these cases
`HPSearchHotPluggables` returns a nonzero status, makes no `RFAddReader` and no
`RFRemoveReader` call (factory state and call log are unchanged) and leaves `sDeviceList`
as it was. Conversely every rescan that returns a nonzero status changed nothing. -/
theorem failed_rescan_changes_nothing {σ : Type} (rf : ReaderFactory σ) (host : HostView)
    (P : HPDeviceList) (st : σ) (log : List ReaderCall)
    (hfail : HPDriversGetFromDirectory host.dropDir = none
      ∨ (∃ drivers readers, HPDriversGetFromDirectory host.dropDir = some drivers
          ∧ HPDriversMatchUSBDevices drivers [] host.usb = some (1, readers))
      ∨ (∃ drivers usbDevices readers,
          HPDriversGetFromDirectory host.dropDir = some drivers
          ∧ HPDriversMatchUSBDevices drivers [] host.usb = some (0, usbDevices)
          ∧ HPDriversMatchPCCardDevices drivers usbDevices host.pccard
              = some (1, readers))) :
    (∃ out, HPSearchHotPluggables rf.recording host P (st, log) = some out
        ∧ out.status ≠ 0 ∧ out.sDeviceList = P ∧ out.registry = (st, log))
      ∧ ∀ (host1 : HostView) (out : Outcome (σ × List ReaderCall)),
          HPSearchHotPluggables rf.recording host1 P (st, log) = some out →
          out.status ≠ 0 → out.sDeviceList = P ∧ out.registry = (st, log) := by
  constructor
  · rcases hfail with h | ⟨drivers, readers, h1, h2⟩ | ⟨drivers, usbDevices, readers, h1, h2, h3⟩
    · exact ⟨⟨1, P, (st, log)⟩, by simp [HPSearchHotPluggables, h], by simp, rfl, rfl⟩
    · exact ⟨⟨-1, P, (st, log)⟩, by simp [HPSearchHotPluggables, h1, h2], by simp, rfl, rfl⟩
    · exact ⟨⟨-1, P, (st, log)⟩, by simp [HPSearchHotPluggables, h1, h2, h3], by simp, rfl,
        rfl⟩
  · intro host1 out h hne
    rcases search_cases rf.recording host1 P (st, log) out h with h1 | ⟨_, _, _, _, _, h0, _⟩
    · exact h1.2
    · exact absurd h0 hne

/-- Witness of C4: the USB iterator fails on its second device, after a first device was
matched; the rescan returns `-1` and keeps the previous list. -/
theorem failed_rescan_changes_nothing_witness :
    (HPDriversGetFromDirectory hostUSBFails.dropDir = none
      ∨ (∃ drivers readers, HPDriversGetFromDirectory hostUSBFails.dropDir = some drivers
          ∧ HPDriversMatchUSBDevices drivers [] hostUSBFails.usb = some (1, readers))
      ∨ (∃ drivers usbDevices readers,
          HPDriversGetFromDirectory hostUSBFails.dropDir = some drivers
          ∧ HPDriversMatchUSBDevices drivers [] hostUSBFails.usb = some (0, usbDevices)
          ∧ HPDriversMatchPCCardDevices drivers usbDevices hostUSBFails.pccard
              = some (1, readers)))
      ∧ ∃ out, HPSearchHotPluggables recorder hostUSBFails [readerXAt1] ((), []) = some out
          ∧ out.status ≠ 0 ∧ out.sDeviceList = [readerXAt1] ∧ out.registry = ((), []) :=
  ⟨Or.inr (Or.inl ⟨[readerX], [⟨readerX, 2⟩], by decide, by decide⟩),
    (failed_rescan_changes_nothing (ReaderFactory.constant 0) hostUSBFails [readerXAt1] () []
      (Or.inr (Or.inl ⟨[readerX], [⟨readerX, 2⟩], by decide, by decide⟩))).1⟩

/-! ## Order and arguments of the calls -/

theorem addCall_isAdd (a : HPDevice) : (addCall a).isAdd = true := rfl

theorem removeCall_isRemove (a : HPDevice) : (removeCall a).isRemove = true := rfl

/-- C8: the calls a rescan makes to the reader factory are a run of `RFAddReader` calls
followed by a run of `RFRemoveReader` calls: no `RFAddReader` comes after an
`RFRemoveReader`. This holds for the two diff loops on any pair of lists as well. -/
theorem adds_precede_removes {σ : Type} (rf : ReaderFactory σ) (host : HostView)
    (P : HPDeviceList) (st : σ) (out : Outcome (σ × List ReaderCall))
    (h : HPSearchHotPluggables rf.recording host P (st, []) = some out) :
    (∃ adds removes, out.registry.2 = adds ++ removes
        ∧ (∀ c ∈ adds, c.isAdd = true) ∧ (∀ c ∈ removes, c.isRemove = true))
      ∧ ∀ (P1 C1 : HPDeviceList) (st1 : σ),
          ∃ adds removes,
            (removeLoop rf.recording C1 P1 (addLoop rf.recording P1 C1 (st1, []))).2
                = adds ++ removes
              ∧ (∀ c ∈ adds, c.isAdd = true) ∧ (∀ c ∈ removes, c.isRemove = true) := by
  have loops : ∀ (P1 C1 : HPDeviceList) (st1 : σ),
      ∃ adds removes,
        (removeLoop rf.recording C1 P1 (addLoop rf.recording P1 C1 (st1, []))).2
            = adds ++ removes
          ∧ (∀ c ∈ adds, c.isAdd = true) ∧ (∀ c ∈ removes, c.isRemove = true) := by
    intro P1 C1 st1
    refine ⟨(withoutEqualIn P1 C1).map addCall, (withoutEqualIn C1 P1).map removeCall, ?_, ?_, ?_⟩
    · simp [diff_recording, diffCalls]
    · intro c hc
      obtain ⟨a, _, rfl⟩ := List.mem_map.1 hc
      exact addCall_isAdd a
    · intro c hc
      obtain ⟨a, _, rfl⟩ := List.mem_map.1 hc
      exact removeCall_isRemove a
  refine ⟨?_, loops⟩
  rcases search_cases rf.recording host P (st, []) out h with h1 | ⟨_, _, _, _, _, _, h5⟩
  · exact ⟨[], [], by simp [h1.2.2], by simp, by simp⟩
  · rw [h5]
    exact loops P out.sDeviceList st

/-- Witness of C8: the rescan that finds `readerX` moved from address `2` to address `1`
adds the new record before it removes the old one. -/
theorem adds_precede_removes_witness :
    HPSearchHotPluggables recorder hostAttached [⟨readerX, 2⟩] ((), [])
        = some ⟨0, [readerXAt1], ((), [addCall readerXAt1, removeCall ⟨readerX, 2⟩])⟩
      ∧ ∃ adds removes,
          [addCall readerXAt1, removeCall ⟨readerX, 2⟩] = adds ++ removes
            ∧ (∀ c ∈ adds, c.isAdd = true) ∧ (∀ c ∈ removes, c.isRemove = true) :=
  ⟨by decide,
    (adds_precede_removes (ReaderFactory.constant 0) hostAttached [⟨readerX, 2⟩] ()
      ⟨0, [readerXAt1], ((), [addCall readerXAt1, removeCall ⟨readerX, 2⟩])⟩ (by decide)).1⟩

/-- C9: the port argument of every `RFAddReader` and every `RFRemoveReader` call of the diff
is `0x200000 + a` reduced modulo `2 ^ 32`, `a` being the address of the record the call is
made for; for the address `0x5` the port is `0x200005`. -/
theorem port_is_base_plus_address {σ : Type} (rf : ReaderFactory σ) (P C : HPDeviceList)
    (st : σ) (driver : HPDriver) :
    (addLoop rf.recording P C (st, [])).2.map ReaderCall.port
        = (C.filter (fun a => decide (¬ hasEqual a P))).map
            (fun a => (0x200000 + a.m_address) % 2 ^ 32)
      ∧ (removeLoop rf.recording C P (st, [])).2.map ReaderCall.port
        = (P.filter (fun a => decide (¬ hasEqual a C))).map
            (fun a => (0x200000 + a.m_address) % 2 ^ 32)
      ∧ (addLoop rf.recording [] [⟨driver, 0x5⟩] (st, [])).2
        = [ReaderCall.RFAddReader driver.m_friendlyName 0x200005 driver.m_libPath]
      ∧ (removeLoop rf.recording [] [⟨driver, 0x5⟩] (st, [])).2
        = [ReaderCall.RFRemoveReader driver.m_friendlyName 0x200005] := by
  refine ⟨?_, ?_, ?_, ?_⟩
  · rw [addLoop_recording]
    simp [withoutEqualIn, addCall, ReaderCall.port, toUInt32, PCSCLITE_HP_BASE_PORT,
      Function.comp_def]
  · rw [removeLoop_recording]
    simp [withoutEqualIn, removeCall, ReaderCall.port, toUInt32, PCSCLITE_HP_BASE_PORT,
      Function.comp_def]
  · simp [addLoop, deviceFound, recording_RFAddReader, toUInt32, PCSCLITE_HP_BASE_PORT]
  · simp [removeLoop, deviceFound, recording_RFRemoveReader, toUInt32, PCSCLITE_HP_BASE_PORT]

/-! ## The stored list after a successful rescan -/

/-- C10: when the catalog load and both enumerations succeed, `sDeviceList` after the rescan
is the matched list, and neither that list nor the sequence of calls made depends on the
reader factory: two factories of any kind, whatever they return, see the same calls and
leave the same list. -/
theorem snapshot_and_calls_ignore_results {σ τ : Type} (rf : ReaderFactory σ)
    (rf2 : ReaderFactory τ) (host : HostView) (P C : HPDeviceList) (st : σ) (st2 : τ)
    (drivers : HPDriverVector) (usbDevices : HPDeviceList)
    (hload : HPDriversGetFromDirectory host.dropDir = some drivers)
    (husb : HPDriversMatchUSBDevices drivers [] host.usb = some (0, usbDevices))
    (hpcc : HPDriversMatchPCCardDevices drivers usbDevices host.pccard = some (0, C)) :
    ∃ out out2,
      HPSearchHotPluggables rf.recording host P (st, []) = some out
        ∧ HPSearchHotPluggables rf2.recording host P (st2, []) = some out2
        ∧ out.status = 0 ∧ out2.status = 0
        ∧ out.sDeviceList = C ∧ out2.sDeviceList = C
        ∧ out.registry.2 = out2.registry.2 := by
  refine ⟨_, _, search_of_matched rf.recording host P (st, []) drivers usbDevices C hload husb
    hpcc, search_of_matched rf2.recording host P (st2, []) drivers usbDevices C hload husb
    hpcc, rfl, rfl, rfl, rfl, ?_⟩
  simp [diff_recording]

/-- Witness of C10: the first rescan of the scenario against a factory that accepts every
call and against one that rejects every call. -/
theorem snapshot_and_calls_ignore_results_witness :
    HPDriversGetFromDirectory hostAttached.dropDir = some [readerX]
      ∧ HPDriversMatchUSBDevices [readerX] [] hostAttached.usb = some (0, [readerXAt1])
      ∧ HPDriversMatchPCCardDevices [readerX] [readerXAt1] hostAttached.pccard
          = some (0, [readerXAt1])
      ∧ ∃ out out2,
          HPSearchHotPluggables (ReaderFactory.constant 0).recording hostAttached [] ((), [])
              = some out
            ∧ HPSearchHotPluggables (ReaderFactory.constant (-1)).recording hostAttached []
                ((), []) = some out2
            ∧ out.status = 0 ∧ out2.status = 0
            ∧ out.sDeviceList = [readerXAt1] ∧ out2.sDeviceList = [readerXAt1]
            ∧ out.registry.2 = out2.registry.2 :=
  ⟨by decide, by decide, by decide,
    snapshot_and_calls_ignore_results (ReaderFactory.constant 0) (ReaderFactory.constant (-1))
      hostAttached [] [readerXAt1] () () [readerX] [readerXAt1] (by decide) (by decide)
      (by decide)⟩

/-! ## The catalog and the match loop -/

theorem HPDriverCopy_eq (rhs : HPDriver) :
    HPDriverCopy rhs = if hasStrings rhs = true then some rhs else none := by
  obtain ⟨v, p, name, path⟩ := rhs
  cases name <;> cases path <;> simp [HPDriverCopy, hasStrings]

theorem matchedRecords_cons_zero (vendorId productId address : Nat) (d : HPDriver)
    (rest : List HPDriver) (h0 : d.m_vendorId = 0) :
    matchedRecords vendorId productId address (d :: rest) = [] := by
  simp [matchedRecords, scannedDrivers, h0]

theorem matchedRecords_cons_match (vendorId productId address : Nat) (d : HPDriver)
    (rest : List HPDriver) (h0 : ¬ d.m_vendorId = 0)
    (hm : d.m_vendorId = vendorId ∧ d.m_productId = productId) :
    matchedRecords vendorId productId address (d :: rest)
      = ⟨d, address⟩ :: matchedRecords vendorId productId address rest := by
  unfold matchedRecords
  rw [scannedDrivers, if_neg h0, List.filter_cons_of_pos (by simpa using hm), List.map_cons]

theorem matchedRecords_cons_skip (vendorId productId address : Nat) (d : HPDriver)
    (rest : List HPDriver) (h0 : ¬ d.m_vendorId = 0)
    (hm : ¬ (d.m_vendorId = vendorId ∧ d.m_productId = productId)) :
    matchedRecords vendorId productId address (d :: rest)
      = matchedRecords vendorId productId address rest := by
  unfold matchedRecords
  rw [scannedDrivers, if_neg h0, List.filter_cons_of_neg (by simpa using hm)]

/-- The match loop either meets a matching slot without strings and has no defined result,
or inserts the matched records in front of the list, last match first. -/
theorem matchDriverLoop_eq (vendorId productId address : Nat) (drivers : List HPDriver)
    (readerList : HPDeviceList) :
    matchDriverLoop vendorId productId address drivers readerList
      = if (matchedRecords vendorId productId address drivers).all
            (fun r => hasStrings r.m_driver) = true
        then some ((matchedRecords vendorId productId address drivers).reverse ++ readerList)
        else none := by
  induction drivers generalizing readerList with
  | nil => simp [matchDriverLoop, matchedRecords, scannedDrivers]
  | cons d rest ih =>
    by_cases h0 : d.m_vendorId = 0
    · rw [matchDriverLoop, if_pos h0,
        matchedRecords_cons_zero vendorId productId address d rest h0]
      simp
    · by_cases hm : d.m_vendorId = vendorId ∧ d.m_productId = productId
      · rw [matchDriverLoop, if_neg h0, if_pos hm,
          matchedRecords_cons_match vendorId productId address d rest h0 hm,
          HPDeviceListInsert, HPDriverCopy_eq]
        by_cases hs : hasStrings d = true
        · simp only [hs, if_true, ih, List.all_cons, Bool.true_and, List.reverse_cons,
            List.append_assoc, List.singleton_append]
        · simp [hs]
      · rw [matchDriverLoop, if_neg h0, if_neg hm,
          matchedRecords_cons_skip vendorId productId address d rest h0 hm, ih]

theorem scannedDrivers_of_nonzero (drivers : List HPDriver)
    (h : ∀ d ∈ drivers, d.m_vendorId ≠ 0) : scannedDrivers drivers = drivers := by
  induction drivers with
  | nil => rfl
  | cons d rest ih =>
    rw [scannedDrivers, if_neg (h d (List.mem_cons_self d rest)),
      ih (fun x hx => h x (List.mem_cons_of_mem d hx))]

/-- C2, amended: for a device with vendor `v`, product `p` and address `a`, the match loop
inserts one record for each slot of the vector that lies before the first slot with
`m_vendorId` zero and whose vendor and product are `v` and `p`, and no other record; the
record holds the address `a` and a driver equal to the slot in all four fields. Whether a
slot matches depends on its vendor and product only. The slots that match must hold their
two strings, which `HPDriverCopy` duplicates. A vector without a zero `m_vendorId` is visited
whole. Both enumerators run this loop for each device they yield. -/
theorem match_loop_inserts_matching_scanned (drivers : List HPDriver)
    (readerList : HPDeviceList) (v p a : Nat)
    (hstr : ∀ d ∈ scannedDrivers drivers, d.m_vendorId = v → d.m_productId = p →
      d.m_friendlyName ≠ none ∧ d.m_libPath ≠ none) :
    matchDriverLoop v p a drivers readerList
        = some ((((scannedDrivers drivers).filter
            (fun d => decide (d.m_vendorId = v ∧ d.m_productId = p))).map
              (fun d => (⟨d, a⟩ : HPDevice))).reverse ++ readerList)
      ∧ ((∀ d ∈ drivers, d.m_vendorId ≠ 0) → scannedDrivers drivers = drivers)
      ∧ (v < 2 ^ 16 → p < 2 ^ 16 → a < 2 ^ 32 →
          HPDriversMatchUSBDevices drivers readerList (some [some ⟨v, p, a⟩])
            = some (0, (matchedRecords v p a drivers).reverse ++ readerList))
      ∧ (v < 2 ^ 32 → p < 2 ^ 32 → a < 2 ^ 32 →
          HPDriversMatchPCCardDevices drivers readerList
              (some [some ⟨some v, some p, some a⟩])
            = some (0, (matchedRecords v p a drivers).reverse ++ readerList)) := by
  have hall : (matchedRecords v p a drivers).all (fun r => hasStrings r.m_driver) = true := by
    rw [List.all_eq_true]
    intro r hr
    unfold matchedRecords at hr
    obtain ⟨d, hd, rfl⟩ := List.mem_map.1 hr
    obtain ⟨hd1, hd2⟩ := List.mem_filter.1 hd
    have hvp : d.m_vendorId = v ∧ d.m_productId = p := by simpa using hd2
    obtain ⟨hn, hl⟩ := hstr d hd1 hvp.1 hvp.2
    simp [hasStrings, Option.isSome_iff_ne_none, hn, hl]
  have hloop : ∀ rl : HPDeviceList, matchDriverLoop v p a drivers rl
      = some ((matchedRecords v p a drivers).reverse ++ rl) := by
    intro rl
    rw [matchDriverLoop_eq, if_pos hall]
  refine ⟨hloop readerList, scannedDrivers_of_nonzero drivers, ?_, ?_⟩
  · intro hv hp ha
    simp only [HPDriversMatchUSBDevices, usbDeviceLoop]
    rw [show toUInt16 v = v from Nat.mod_eq_of_lt hv,
      show toUInt16 p = p from Nat.mod_eq_of_lt hp,
      show toUInt32 a = a from Nat.mod_eq_of_lt ha, hloop]
  · intro hv hp ha
    simp only [HPDriversMatchPCCardDevices, pccardDeviceLoop, Option.getD_some]
    rw [show toUInt32 v = v from Nat.mod_eq_of_lt hv,
      show toUInt32 p = p from Nat.mod_eq_of_lt hp,
      show toUInt32 a = a from Nat.mod_eq_of_lt ha, hloop]

/-- Witness of C2, amended: a vector with two drivers for the device, one for another device
and, behind a slot with vendor zero, a third driver for the device that is not visited. -/
theorem match_loop_inserts_matching_scanned_witness :
    (∀ d ∈ scannedDrivers [readerX, otherDriver, readerY, zeroVendor, readerX],
        d.m_vendorId = 0x04E6 → d.m_productId = 0x5116 →
        d.m_friendlyName ≠ none ∧ d.m_libPath ≠ none)
      ∧ matchDriverLoop 0x04E6 0x5116 7 [readerX, otherDriver, readerY, zeroVendor, readerX] []
        = some [⟨readerY, 7⟩, ⟨readerX, 7⟩] := by
  refine ⟨by decide, ?_⟩
  have h := (match_loop_inserts_matching_scanned
    [readerX, otherDriver, readerY, zeroVendor, readerX] [] 0x04E6 0x5116 7 (by decide)).1
  rw [h]
  decide

/-- Counterexample to C2 as stated: the catalog loaded from a bundle whose vendor reads as
zero followed by the `readerX` bundle holds a descriptor with the vendor and product of the
device, yet the match loop inserts no record for it, since the walk ends at the zero
vendor. -/
theorem match_loop_stops_at_zero_vendor :
    HPDriversGetFromDirectory (some [zeroVendorBundle, readerXBundle])
        = some [zeroVendor, readerX]
      ∧ readerX ∈ [zeroVendor, readerX]
      ∧ (readerX.m_vendorId = 0x04E6 ∧ readerX.m_productId = 0x5116)
      ∧ matchDriverLoop 0x04E6 0x5116 1 [zeroVendor, readerX] [] = some []
      ∧ HPDriversMatchUSBDevices [zeroVendor, readerX] [] (some [some ⟨0x04E6, 0x5116, 1⟩])
          = some (0, []) := by
  decide

/-! ## The catalog load -/

/-- The load of a listed drop directory never returns the null pointer, whatever keys the
bundles lack. -/
theorem load_of_listing_isSome (bundleArray : List Bundle) :
    HPDriversGetFromDirectory (some bundleArray) ≠ none := by
  simp [HPDriversGetFromDirectory]

/-- When every bundle has both identity keys the load returns one slot for each bundle, in
order, with the parsed identity, the bundle path, and the friendly name or, where that key is
absent, the name `unnamed device`. -/
theorem load_of_complete_bundles (bundleArray : List Bundle)
    (h : ∀ b ∈ bundleArray, b.ifdVendorID ≠ none ∧ b.ifdProductID ≠ none) :
    HPDriversGetFromDirectory (some bundleArray)
      = some (bundleArray.map (fun b =>
          (⟨toUInt32 (b.ifdVendorID.getD 0), toUInt32 (b.ifdProductID.getD 0),
            some (b.ifdFriendlyName.getD "unnamed device"), some b.bundlePath⟩ : HPDriver))) := by
  have hfill : fillDriverVector bundleArray
      = bundleArray.map (fun b =>
          (⟨toUInt32 (b.ifdVendorID.getD 0), toUInt32 (b.ifdProductID.getD 0),
            some (b.ifdFriendlyName.getD "unnamed device"), some b.bundlePath⟩ : HPDriver)) := by
    induction bundleArray with
    | nil => rfl
    | cons b rest ih =>
      obtain ⟨hv, hp⟩ := h b (List.mem_cons_self b rest)
      obtain ⟨v, hv2⟩ := Option.ne_none_iff_exists'.1 hv
      obtain ⟨q, hp2⟩ := Option.ne_none_iff_exists'.1 hp
      simp [fillDriverVector, hv2, hp2, unnamedDevice,
        ih (fun x hx => h x (List.mem_cons_of_mem b hx))]
  simp [HPDriversGetFromDirectory, hfill]

/-- C3, the code at the failing input: a bundle without `ifdVendorID`, or without
`ifdProductID`, does not make `HPDriversGetFromDirectory` return the null pointer. It returns
the vector as filled so far, and `HPSearchHotPluggables` goes on with it: on
`hostBrokenBundle` the rescan returns `0` and removes the reader of a device that is still
attached, because the walk of the catalog ends at the broken slot. -/
theorem load_returns_vector_despite_missing_identity :
    HPDriversGetFromDirectory (some [noVendorBundle, readerXBundle])
        = some [⟨0, 0, none, some "/b"⟩, HPDriver.zeroed]
      ∧ HPDriversGetFromDirectory (some [noProductBundle, readerXBundle])
        = some [⟨0x04E6, 0, none, some "/c"⟩, HPDriver.zeroed]
      ∧ HPSearchHotPluggables recorder hostBrokenBundle [readerXAt1] ((), [])
        = some ⟨0, [], ((), [ReaderCall.RFRemoveReader (some "ReaderX") 0x200001])⟩ := by
  decide

/-! ## The scenario of one reader attached and detached -/

/-- C7, amended: from the empty list, with a catalog of the single bundle (vendor `v`,
product `p`, name `n`, path `l`) where `v` is not zero, and one device (`v`, `p`, address
`a`) present on the PC Card bus, or on the USB bus when `v` and `p` fit in 16 bits: the first
rescan calls `RFAddReader(n, (0x200000 + a) mod 2 ^ 32, l)` once, calls `RFRemoveReader` not
at all and leaves a list of exactly one record; the second rescan, with the same catalog and
no device, calls `RFRemoveReader(n, (0x200000 + a) mod 2 ^ 32)` once, calls `RFAddReader`
not at all and leaves the empty list. -/
theorem attach_then_detach {σ : Type} (rf : ReaderFactory σ) (st : σ) (v p a : Nat)
    (n l : String) (hv0 : v ≠ 0) (hv : v < 2 ^ 32) (hp : p < 2 ^ 32) (ha : a < 2 ^ 32) :
    (∃ st1 st2,
        HPSearchHotPluggables rf.recording
            ⟨some [⟨l, some v, some p, some n⟩], some [],
              some [some ⟨some v, some p, some a⟩]⟩ [] (st, [])
          = some ⟨0, [⟨⟨v, p, some n, some l⟩, a⟩],
              (st1, [ReaderCall.RFAddReader (some n) ((0x200000 + a) % 2 ^ 32) (some l)])⟩
        ∧ HPSearchHotPluggables rf.recording
            ⟨some [⟨l, some v, some p, some n⟩], some [], some []⟩
            [⟨⟨v, p, some n, some l⟩, a⟩] (st1, [])
          = some ⟨0, [],
              (st2, [ReaderCall.RFRemoveReader (some n) ((0x200000 + a) % 2 ^ 32)])⟩)
      ∧ (v < 2 ^ 16 → p < 2 ^ 16 → ∃ st1 st2,
        HPSearchHotPluggables rf.recording
            ⟨some [⟨l, some v, some p, some n⟩], some [some ⟨v, p, a⟩], some []⟩ [] (st, [])
          = some ⟨0, [⟨⟨v, p, some n, some l⟩, a⟩],
              (st1, [ReaderCall.RFAddReader (some n) ((0x200000 + a) % 2 ^ 32) (some l)])⟩
        ∧ HPSearchHotPluggables rf.recording
            ⟨some [⟨l, some v, some p, some n⟩], some [], some []⟩
            [⟨⟨v, p, some n, some l⟩, a⟩] (st1, [])
          = some ⟨0, [],
              (st2, [ReaderCall.RFRemoveReader (some n) ((0x200000 + a) % 2 ^ 32)])⟩) := by
  have e32v : toUInt32 v = v := Nat.mod_eq_of_lt hv
  have e32p : toUInt32 p = p := Nat.mod_eq_of_lt hp
  have e32a : toUInt32 a = a := Nat.mod_eq_of_lt ha
  have hload : HPDriversGetFromDirectory (some [(⟨l, some v, some p, some n⟩ : Bundle)])
      = some [⟨v, p, some n, some l⟩] := by
    simp [HPDriversGetFromDirectory, fillDriverVector, e32v, e32p]
  have hmatch : ∀ rl : HPDeviceList,
      matchDriverLoop v p a [(⟨v, p, some n, some l⟩ : HPDriver)] rl
        = some (⟨⟨v, p, some n, some l⟩, a⟩ :: rl) := by
    intro rl
    simp [matchDriverLoop, hv0, HPDeviceListInsert, HPDriverCopy]
  have hsecond : ∀ st1 : σ,
      HPSearchHotPluggables rf.recording
          ⟨some [⟨l, some v, some p, some n⟩], some [], some []⟩
          [⟨⟨v, p, some n, some l⟩, a⟩] (st1, [])
        = some ⟨0, [],
            ((rf.RFRemoveReader (some n) ((0x200000 + a) % 2 ^ 32) st1).2,
              [ReaderCall.RFRemoveReader (some n) ((0x200000 + a) % 2 ^ 32)])⟩ := by
    intro st1
    rw [search_of_matched rf.recording
      ⟨some [⟨l, some v, some p, some n⟩], some [], some []⟩ _ _ [⟨v, p, some n, some l⟩] []
      [] hload rfl rfl]
    simp [addLoop, removeLoop, deviceFound, recording_RFRemoveReader, toUInt32,
      PCSCLITE_HP_BASE_PORT]
  have hadd : addLoop rf.recording [] [(⟨⟨v, p, some n, some l⟩, a⟩ : HPDevice)] (st, [])
      = ((rf.RFAddReader (some n) ((0x200000 + a) % 2 ^ 32) (some l) st).2,
          [ReaderCall.RFAddReader (some n) ((0x200000 + a) % 2 ^ 32) (some l)]) := by
    simp [addLoop, deviceFound, recording_RFAddReader, toUInt32, PCSCLITE_HP_BASE_PORT]
  constructor
  · refine ⟨(rf.RFAddReader (some n) ((0x200000 + a) % 2 ^ 32) (some l) st).2, _, ?_,
      hsecond _⟩
    rw [search_of_matched rf.recording
      ⟨some [⟨l, some v, some p, some n⟩], some [], some [some ⟨some v, some p, some a⟩]⟩
      _ _ [⟨v, p, some n, some l⟩] [] [⟨⟨v, p, some n, some l⟩, a⟩] hload rfl
      (by simp [HPDriversMatchPCCardDevices, pccardDeviceLoop, e32v, e32p, e32a, hmatch]),
      hadd]
    simp [removeLoop]
  · intro hv16 hp16
    have e16v : toUInt16 v = v := Nat.mod_eq_of_lt hv16
    have e16p : toUInt16 p = p := Nat.mod_eq_of_lt hp16
    refine ⟨(rf.RFAddReader (some n) ((0x200000 + a) % 2 ^ 32) (some l) st).2, _, ?_,
      hsecond _⟩
    rw [search_of_matched rf.recording
      ⟨some [⟨l, some v, some p, some n⟩], some [some ⟨v, p, a⟩], some []⟩ _ _
      [⟨v, p, some n, some l⟩]
      [⟨⟨v, p, some n, some l⟩, a⟩] [⟨⟨v, p, some n, some l⟩, a⟩] hload
      (by simp [HPDriversMatchUSBDevices, usbDeviceLoop, e16v, e16p, e32a, hmatch]) rfl,
      hadd]
    simp [removeLoop]

/-- Witness of C7, amended: `v = 0x04E6`, `p = 0x5116`, `n = ReaderX`, `l = /a`, `a = 1`. -/
theorem attach_then_detach_witness :
    (0x04E6 ≠ 0 ∧ 0x04E6 < 2 ^ 32 ∧ 0x5116 < 2 ^ 32 ∧ 1 < 2 ^ 32)
      ∧ ∃ st1 st2,
        HPSearchHotPluggables recorder
            ⟨some [⟨"/a", some 0x04E6, some 0x5116, some "ReaderX"⟩],
              some [some ⟨0x04E6, 0x5116, 1⟩], some []⟩ [] ((), [])
          = some ⟨0, [⟨⟨0x04E6, 0x5116, some "ReaderX", some "/a"⟩, 1⟩],
              (st1, [ReaderCall.RFAddReader (some "ReaderX") ((0x200000 + 1) % 2 ^ 32)
                (some "/a")])⟩
        ∧ HPSearchHotPluggables recorder
            ⟨some [⟨"/a", some 0x04E6, some 0x5116, some "ReaderX"⟩], some [], some []⟩
            [⟨⟨0x04E6, 0x5116, some "ReaderX", some "/a"⟩, 1⟩] (st1, [])
          = some ⟨0, [],
              (st2, [ReaderCall.RFRemoveReader (some "ReaderX") ((0x200000 + 1) % 2 ^ 32)])⟩ :=
  ⟨by decide,
    (attach_then_detach (ReaderFactory.constant 0) () 0x04E6 0x5116 1 "ReaderX" "/a"
      (by decide) (by decide) (by decide) (by decide)).2 (by decide) (by decide)⟩

/-- Counterexample to C7 as stated, at `v = 0`: with the single bundle (vendor `0`, product
`0x5116`, name `Zero`, path `/z`) and the device (`0`, `0x5116`, address `1`) present, the
first rescan succeeds, calls `RFAddReader` not at all and leaves the empty list. -/
theorem attach_with_zero_vendor_adds_nothing :
    HPDriversGetFromDirectory hostZeroVendor.dropDir = some [⟨0, 0x5116, some "Zero", some "/z"⟩]
      ∧ hostZeroVendor.usb = some [some ⟨0, 0x5116, 1⟩]
      ∧ HPSearchHotPluggables recorder hostZeroVendor [] ((), []) = some ⟨0, [], ((), [])⟩ := by
  decide

/-! ## Equal records in the stored list -/

theorem mem_matchedRecords {v p a : Nat} {drivers : List HPDriver} {x : HPDevice}
    (hx : x ∈ matchedRecords v p a drivers) :
    x.m_driver ∈ scannedDrivers drivers
      ∧ x.m_driver.m_vendorId = v ∧ x.m_driver.m_productId = p ∧ x.m_address = a := by
  unfold matchedRecords at hx
  obtain ⟨d, hd, rfl⟩ := List.mem_map.1 hx
  obtain ⟨hd1, hd2⟩ := List.mem_filter.1 hd
  have hvp : d.m_vendorId = v ∧ d.m_productId = p := by simpa using hd2
  exact ⟨hd1, hvp.1, hvp.2, rfl⟩

/-- A USB enumeration that returns `0` met no failing entry and inserted the records of its
devices, last device first. -/
theorem usbDeviceLoop_ok (drivers : HPDriverVector) (yielded : List (Option USBDevice))
    (readerList result : HPDeviceList)
    (h : usbDeviceLoop drivers yielded readerList = some (0, result)) :
    ∃ devs : List USBDevice, yielded = devs.map some
      ∧ result = ((devs.map usbTriple).flatMap (recordsFor drivers)).reverse ++ readerList := by
  induction yielded generalizing readerList with
  | nil =>
    simp only [usbDeviceLoop, Option.some.injEq, Prod.mk.injEq, true_and] at h
    exact ⟨[], rfl, by simp [h]⟩
  | cons entry rest ih =>
    cases entry with
    | none => simp [usbDeviceLoop] at h
    | some dev =>
      rw [usbDeviceLoop, matchDriverLoop_eq] at h
      by_cases hall : (matchedRecords (toUInt16 dev.idVendor) (toUInt16 dev.idProduct)
          (toUInt32 dev.locationID) drivers).all (fun r => hasStrings r.m_driver) = true
      · rw [if_pos hall] at h
        obtain ⟨devs, hrest, hres⟩ := ih _ h
        refine ⟨dev :: devs, by simp [hrest], ?_⟩
        rw [hres]
        simp [recordsFor, usbTriple]
      · rw [if_neg hall] at h
        simp at h

/-- A PC Card enumeration that returns `0` met no failing entry and inserted the records of
its devices, last device first. -/
theorem pccardDeviceLoop_ok (drivers : HPDriverVector) (yielded : List (Option PCCardDevice))
    (readerList result : HPDeviceList)
    (h : pccardDeviceLoop drivers yielded readerList = some (0, result)) :
    ∃ devs : List PCCardDevice, yielded = devs.map some
      ∧ result
          = ((devs.map pccardTriple).flatMap (recordsFor drivers)).reverse ++ readerList := by
  induction yielded generalizing readerList with
  | nil =>
    simp only [pccardDeviceLoop, Option.some.injEq, Prod.mk.injEq, true_and] at h
    exact ⟨[], rfl, by simp [h]⟩
  | cons entry rest ih =>
    cases entry with
    | none => simp [pccardDeviceLoop] at h
    | some dev =>
      rw [pccardDeviceLoop, matchDriverLoop_eq] at h
      by_cases hall : (matchedRecords (toUInt32 (dev.VendorID.getD 0))
          (toUInt32 (dev.DeviceID.getD 0)) (toUInt32 (dev.SocketNumber.getD 0)) drivers).all (fun r => hasStrings r.m_driver) = true
      · rw [if_pos hall] at h
        obtain ⟨devs, hrest, hres⟩ := ih _ h
        refine ⟨dev :: devs, by simp [hrest], ?_⟩
        rw [hres]
        simp [recordsFor, pccardTriple]
      · rw [if_neg hall] at h
        simp at h

/-- The list matched by two successful enumerations holds the records of the present
devices, last device first. -/
theorem matched_eq_recordsFor (host : HostView) (drivers : HPDriverVector)
    (usbDevices devices : HPDeviceList)
    (husb : HPDriversMatchUSBDevices drivers [] host.usb = some (0, usbDevices))
    (hpcc : HPDriversMatchPCCardDevices drivers usbDevices host.pccard = some (0, devices)) :
    devices = ((presentDevices host).flatMap (recordsFor drivers)).reverse := by
  unfold HPDriversMatchUSBDevices at husb
  unfold HPDriversMatchPCCardDevices at hpcc
  cases hu : host.usb with
  | none => simp [hu] at husb
  | some usbYield =>
    cases hp : host.pccard with
    | none => simp [hp] at hpcc
    | some pccYield =>
      rw [hu] at husb
      rw [hp] at hpcc
      obtain ⟨udevs, hu1, hu2⟩ := usbDeviceLoop_ok drivers usbYield [] usbDevices husb
      obtain ⟨pdevs, hp1, hp2⟩ := pccardDeviceLoop_ok drivers pccYield usbDevices devices hpcc
      rw [hp2, hu2]
      simp [presentDevices, hu, hp, hu1, hp1, List.filterMap_map]

/-- Records matched for two devices are equal exactly when the devices agree in vendor,
product and address. -/
theorem equals_of_recordsFor {drivers : List HPDriver} {t1 t2 : Nat × Nat × Nat}
    {x y : HPDevice} (hx : x ∈ recordsFor drivers t1) (hy : y ∈ recordsFor drivers t2) :
    HPDeviceEquals y x = true ↔ t2 = t1 := by
  obtain ⟨_, hx1, hx2, hx3⟩ := mem_matchedRecords hx
  obtain ⟨_, hy1, hy2, hy3⟩ := mem_matchedRecords hy
  rw [HPDeviceEquals_iff, hx1, hx2, hx3, hy1, hy2, hy3]
  constructor
  · rintro ⟨e1, e2, e3⟩
    exact Prod.ext e1 (Prod.ext e2 e3)
  · rintro rfl
    exact ⟨rfl, rfl, rfl⟩

/-- The records matched for one device are pairwise unequal exactly when there is at most
one of them. -/
theorem pairwise_recordsFor_iff (drivers : List HPDriver) (t : Nat × Nat × Nat) :
    (recordsFor drivers t).Pairwise (fun a b => HPDeviceEquals b a = false)
      ↔ (recordsFor drivers t).length ≤ 1 := by
  have hmem : ∀ x ∈ recordsFor drivers t, x ∈ recordsFor drivers t := fun _ h => h
  revert hmem
  generalize hrec : recordsFor drivers t = recs
  intro hmem
  match recs, hmem with
  | [], _ => simp
  | [x], _ => simp
  | x :: y :: rest, hmem =>
    constructor
    · intro hp
      have hxy := (List.pairwise_cons.1 hp).1 y (List.mem_cons_self y rest)
      have hx := hmem x (List.mem_cons_self x _)
      have hy := hmem y (List.mem_cons_of_mem x (List.mem_cons_self y rest))
      rw [← hrec] at hx hy
      rw [(equals_of_recordsFor hx hy).2 rfl] at hxy
      exact absurd hxy (by decide)
    · intro hlen
      simp at hlen

/-- The matched list has no two equal records exactly when the present devices are singly
matched. -/
theorem noEqualRecords_matched_iff (drivers : List HPDriver)
    (present : List (Nat × Nat × Nat)) :
    noEqualRecords ((present.flatMap (recordsFor drivers)).reverse)
      ↔ singlyMatched drivers present := by
  unfold noEqualRecords singlyMatched
  rw [List.pairwise_reverse, List.pairwise_flatMap, List.Nodup, List.pairwise_filter]
  refine and_congr ?_ ?_
  · exact forall₂_congr (fun t _ => pairwise_recordsFor_iff drivers t)
  · constructor
    · intro h
      refine h.imp ?_
      intro t1 t2 hq h1 h2 he
      obtain ⟨x, hx⟩ := List.exists_mem_of_ne_nil _ h1
      obtain ⟨y, hy⟩ := List.exists_mem_of_ne_nil _ h2
      have hxy := hq x hx y hy
      rw [(equals_of_recordsFor hx hy).2 he.symm] at hxy
      exact absurd hxy (by decide)
    · intro h
      refine h.imp ?_
      intro t1 t2 hq x hx y hy
      rw [Bool.eq_false_iff]
      intro he
      exact hq (List.ne_nil_of_mem hx) (List.ne_nil_of_mem hy)
        ((equals_of_recordsFor hx hy).1 he).symm

/-- C5, amended: after a rescan the stored list has no two `HPDeviceEquals`-equal records
exactly in these two cases: the rescan failed and the list it started from had none (the
list is kept); or the rescan succeeded and the present devices are singly matched, that is,
no present device has two descriptors of its vendor and product among the visited part of
the catalog, and no two present devices that some visited descriptor matches agree in
vendor, product and address. The code does not remove duplicates: a successful rescan stores
the matched list as it is, whatever the list before. -/
theorem stored_records_unequal_iff {σ : Type} (rf : ReaderFactory σ) (host : HostView)
    (P : HPDeviceList) (reg : σ) (out : Outcome σ)
    (h : HPSearchHotPluggables rf host P reg = some out) :
    noEqualRecords out.sDeviceList ↔
      (out.status ≠ 0 ∧ out.sDeviceList = P ∧ noEqualRecords P)
        ∨ (out.status = 0 ∧ ∃ drivers,
            HPDriversGetFromDirectory host.dropDir = some drivers
              ∧ out.sDeviceList = ((presentDevices host).flatMap (recordsFor drivers)).reverse
              ∧ singlyMatched drivers (presentDevices host)) := by
  rcases search_cases rf host P reg out h with h1 | ⟨drivers, usbDevices, hl, hu, hp, h0, _⟩
  · constructor
    · intro hne
      exact Or.inl ⟨h1.1, h1.2.1, h1.2.1 ▸ hne⟩
    · rintro (⟨_, _, hP⟩ | ⟨h0, _⟩)
      · rw [h1.2.1]
        exact hP
      · exact absurd h0 h1.1
  · have hC := matched_eq_recordsFor host drivers usbDevices out.sDeviceList hu hp
    constructor
    · intro hne
      refine Or.inr ⟨h0, drivers, hl, hC, ?_⟩
      rw [hC] at hne
      exact (noEqualRecords_matched_iff drivers (presentDevices host)).1 hne
    · rintro (⟨hs, _⟩ | ⟨_, drivers2, hl2, _, hsm⟩)
      · exact absurd h0 hs
      · have hd : drivers2 = drivers := Option.some.inj (hl2.symm.trans hl)
        subst hd
        rw [hC]
        exact (noEqualRecords_matched_iff drivers2 (presentDevices host)).2 hsm

/-- Witness of C5, amended: `hostBusy` rescanned from a list that holds two equal records.
The catalog has two descriptors of one vendor and product, which no device has, and the two
PC Card devices both read as vendor, product and address zero, which no visited descriptor
matches; the two USB devices are matched once each, so the stored list of two records has no
two equal ones. -/
theorem stored_records_unequal_iff_witness :
    HPSearchHotPluggables recorder hostBusy [readerXAt1, renamedAt1] ((), [])
        = some ⟨0, [⟨readerX, 2⟩, readerXAt1], ((), [addCall ⟨readerX, 2⟩])⟩
      ∧ ¬ noEqualRecords [readerXAt1, renamedAt1]
      ∧ singlyMatched [readerX, otherDriver, ⟨0x0001, 0x0002, some "Other2", some "/o2"⟩]
          (presentDevices hostBusy)
      ∧ noEqualRecords [⟨readerX, 2⟩, readerXAt1] := by
  have h1 : HPSearchHotPluggables recorder hostBusy [readerXAt1, renamedAt1] ((), [])
      = some ⟨0, [⟨readerX, 2⟩, readerXAt1], ((), [addCall ⟨readerX, 2⟩])⟩ := by decide
  have h2 : ¬ noEqualRecords [readerXAt1, renamedAt1] := by
    intro hne
    have := (List.pairwise_cons.1 hne).1 renamedAt1 (List.mem_singleton.2 rfl)
    revert this
    decide
  have h3 : singlyMatched [readerX, otherDriver, ⟨0x0001, 0x0002, some "Other2", some "/o2"⟩]
      (presentDevices hostBusy) := by decide
  exact ⟨h1, h2, h3,
    (stored_records_unequal_iff recorder hostBusy [readerXAt1, renamedAt1] ((), [])
      ⟨0, [⟨readerX, 2⟩, readerXAt1], ((), [addCall ⟨readerX, 2⟩])⟩ h1).2
      (Or.inr ⟨rfl, _, by decide, by decide, h3⟩)⟩

/-- Counterexample to C5 as stated: with two catalog descriptors of one vendor and product
and one matching device, the rescan from the empty list succeeds and stores two records that
are equal under `HPDeviceEquals`. -/
theorem two_drivers_store_equal_records :
    HPSearchHotPluggables recorder hostTwoDrivers [] ((), [])
        = some ⟨0, [⟨readerY, 1⟩, ⟨readerX, 1⟩],
            ((), [addCall ⟨readerY, 1⟩, addCall ⟨readerX, 1⟩])⟩
      ∧ HPDeviceEquals ⟨readerY, 1⟩ ⟨readerX, 1⟩ = true
      ∧ ¬ noEqualRecords [⟨readerY, 1⟩, ⟨readerX, 1⟩] := by
  refine ⟨by decide, by decide, ?_⟩
  intro h
  have h2 := (List.pairwise_cons.1 h).1 ⟨readerX, 1⟩ (List.mem_singleton.2 rfl)
  revert h2
  decide

/-! ## Sequences of rescans -/

theorem replayCalls_append (added : List (Option String × Nat)) (first second : List ReaderCall) :
    replayCalls added (first ++ second)
      = (replayCalls added first).bind (fun mid => replayCalls mid second) := by
  induction first generalizing added with
  | nil => simp [replayCalls]
  | cons c rest ih =>
    cases c with
    | RFAddReader name port library => simp [replayCalls, ih]
    | RFRemoveReader name port =>
      by_cases h : (name, port) ∈ added
      · simp [replayCalls, h, ih]
      · simp [replayCalls, h]

/-- A run of `RFAddReader` calls puts the pair of each record in. -/
theorem replayCalls_adds (added : List (Option String × Nat)) (adds : HPDeviceList) :
    replayCalls added (adds.map addCall) = some ((adds.map readerKey).reverse ++ added) := by
  induction adds generalizing added with
  | nil => simp [replayCalls]
  | cons a rest ih =>
    simp only [List.map_cons, addCall, replayCalls]
    have h := ih ((a.m_driver.m_friendlyName,
      toUInt32 (PCSCLITE_HP_BASE_PORT + a.m_address)) :: added)
    simp only [addCall] at h
    rw [h]
    simp [readerKey]

/-- A run of `RFRemoveReader` calls is in order when each pair occurs among the added pairs
at least as often as the run removes it, and takes exactly those occurrences out. -/
theorem replayCalls_removes (added : List (Option String × Nat)) (rems : HPDeviceList)
    (h : ∀ x, List.count x (rems.map readerKey) ≤ List.count x added) :
    ∃ left, replayCalls added (rems.map removeCall) = some left
      ∧ ∀ x, List.count x left + List.count x (rems.map readerKey) = List.count x added := by
  induction rems generalizing added with
  | nil => exact ⟨added, by simp [replayCalls], by simp⟩
  | cons a rest ih =>
    have hmem : readerKey a ∈ added := by
      have h1 := h (readerKey a)
      rw [List.map_cons, List.count_cons_self] at h1
      exact List.count_pos_iff.1 (by omega)
    have hrest : ∀ x, List.count x (rest.map readerKey)
        ≤ List.count x (added.erase (readerKey a)) := by
      intro x
      have h1 := h x
      by_cases hx : x = readerKey a
      · subst hx
        rw [List.map_cons, List.count_cons_self] at h1
        rw [List.count_erase_self]
        omega
      · rw [List.map_cons, List.count_cons_of_ne hx] at h1
        rw [List.count_erase_of_ne hx]
        exact h1
    obtain ⟨left, hleft, hcount⟩ := ih (added.erase (readerKey a)) hrest
    refine ⟨left, ?_, ?_⟩
    · have hmem2 : (a.m_driver.m_friendlyName,
          toUInt32 (PCSCLITE_HP_BASE_PORT + a.m_address)) ∈ added := hmem
      simp only [List.map_cons, removeCall, replayCalls, hmem2, if_true]
      simpa [removeCall, readerKey] using hleft
    · intro x
      have h1 := hcount x
      have h2 := h x
      by_cases hx : x = readerKey a
      · subst hx
        rw [List.count_erase_self] at h1
        rw [List.map_cons, List.count_cons_self] at h2 ⊢
        omega
      · rw [List.count_erase_of_ne hx] at h1
        rw [List.map_cons, List.count_cons_of_ne hx]
        exact h1

theorem HPDeviceEquals_trans {a b c : HPDevice} (hab : HPDeviceEquals a b = true)
    (hbc : HPDeviceEquals b c = true) : HPDeviceEquals a c = true := by
  rw [HPDeviceEquals_iff] at *
  exact ⟨hab.1.trans hbc.1, hab.2.1.trans hbc.2.1, hab.2.2.trans hbc.2.2⟩

theorem count_eq_of_perm {first second : List (Option String × Nat)}
    (h : first.Perm second) (x : Option String × Nat) :
    List.count x first = List.count x second := by
  simp only [List.count]
  exact h.countP_eq _

/-- Records that are pairwise unequal and each have an equal record of the same pair in a
second list carry no pair more often than the second list does. -/
theorem count_readerKey_le_of_matching (recs : HPDeviceList) (others : HPDeviceList)
    (hrecs : noEqualRecords recs)
    (hmatch : ∀ b ∈ recs, ∃ a ∈ others, HPDeviceEquals b a = true ∧ readerKey a = readerKey b)
    (x : Option String × Nat) :
    List.count x (recs.map readerKey) ≤ List.count x (others.map readerKey) := by
  induction recs generalizing others with
  | nil => simp
  | cons b rest ih =>
    obtain ⟨a, ha, hba, hkey⟩ := hmatch b (List.mem_cons_self b rest)
    have hpair := List.pairwise_cons.1 hrecs
    have hrest : ∀ b2 ∈ rest, ∃ a2 ∈ others.erase a,
        HPDeviceEquals b2 a2 = true ∧ readerKey a2 = readerKey b2 := by
      intro b2 hb2
      obtain ⟨a2, ha2, hb2a2, hkey2⟩ := hmatch b2 (List.mem_cons_of_mem b hb2)
      have hne : a2 ≠ a := by
        intro he
        subst he
        have h1 : HPDeviceEquals b b2 = true :=
          HPDeviceEquals_trans hba (by rw [HPDeviceEquals_comm]; exact hb2a2)
        rw [hpair.1 b2 hb2] at h1
        exact Bool.false_ne_true h1
      exact ⟨a2, (List.mem_erase_of_ne hne).2 ha2, hb2a2, hkey2⟩
    have h1 := ih (others.erase a) hpair.2 hrest
    have hperm : List.count x (others.map readerKey)
        = List.count x ((a :: others.erase a).map readerKey) :=
      count_eq_of_perm ((List.perm_cons_erase ha).map readerKey) x
    rw [hperm, List.map_cons, List.map_cons, hkey, List.count_cons, List.count_cons]
    omega

theorem withoutEqualIn_sublist (other list : HPDeviceList) :
    List.Sublist (withoutEqualIn other list) list := by
  unfold withoutEqualIn
  exact List.filter_sublist list

/-- A list splits into its records with an equal record in `other` and those without. -/
theorem count_readerKey_split (other list : HPDeviceList) (x : Option String × Nat) :
    List.count x (list.map readerKey)
      = List.count x ((withEqualIn other list).map readerKey)
        + List.count x ((withoutEqualIn other list).map readerKey) := by
  have hperm := List.filter_append_perm (fun a => decide (hasEqual a other)) list
  have hfilter : list.filter (fun a => !decide (hasEqual a other))
      = withoutEqualIn other list := by
    unfold withoutEqualIn
    apply List.filter_congr
    intro a _
    simp
  rw [hfilter] at hperm
  rw [← count_eq_of_perm (hperm.map readerKey) x, List.map_append, List.count_append]
  rfl

theorem keepsReaders_count (P C : HPDeviceList) (h : keepsReaders P C = true)
    (x : Option String × Nat) :
    List.count x ((withEqualIn P C).map readerKey)
      ≤ List.count x ((withEqualIn C P).map readerKey) := by
  by_cases hx : x ∈ (withEqualIn P C).map readerKey
  · unfold keepsReaders at h
    rw [List.all_eq_true] at h
    exact of_decide_eq_true (h x hx)
  · rw [List.count_eq_zero_of_not_mem hx]
    exact Nat.zero_le _

theorem keepsReaders_of_count (P C : HPDeviceList)
    (h : ∀ x, List.count x ((withEqualIn P C).map readerKey)
      ≤ List.count x ((withEqualIn C P).map readerKey)) :
    keepsReaders P C = true := by
  unfold keepsReaders
  rw [List.all_eq_true]
  intro x _
  exact decide_eq_true (h x)

/-- A matched list without two equal records whose records carry the name of the stored
record they equal keeps the readers. -/
theorem keepsReaders_of_same_names (P C : HPDeviceList) (hC : noEqualRecords C)
    (hkey : ∀ b ∈ C, ∀ a ∈ P, HPDeviceEquals b a = true → readerKey a = readerKey b) :
    keepsReaders P C = true := by
  apply keepsReaders_of_count
  intro x
  apply count_readerKey_le_of_matching
  · exact List.Pairwise.filter _ hC
  · intro b hb
    obtain ⟨hbC, hbP⟩ := List.mem_filter.1 hb
    obtain ⟨a, haP, hba⟩ := of_decide_eq_true hbP
    refine ⟨a, List.mem_filter.2 ⟨haP, decide_eq_true ⟨b, hbC, ?_⟩⟩, hba,
      hkey b hbC a haP hba⟩
    rw [HPDeviceEquals_comm]
    exact hba

/-- One diff replayed: when the added pairs cover the previous list and the matched list
keeps the readers, every `RFRemoveReader` of the diff is in order and the added pairs cover
the matched list afterwards. -/
theorem replayCalls_diff (added : List (Option String × Nat)) (P C : HPDeviceList)
    (hcover : ∀ x, List.count x (P.map readerKey) ≤ List.count x added)
    (hkeep : keepsReaders P C = true) :
    ∃ next, replayCalls added (diffCalls P C) = some next
      ∧ ∀ x, List.count x (C.map readerKey) ≤ List.count x next := by
  have hsub : ∀ x, List.count x ((withoutEqualIn C P).map readerKey)
      ≤ List.count x (((withoutEqualIn P C).map readerKey).reverse ++ added) := by
    intro x
    have h1 := ((withoutEqualIn_sublist C P).map readerKey).count_le x
    have h2 := hcover x
    rw [List.count_append]
    omega
  obtain ⟨next, hnext, hcount⟩ := replayCalls_removes _ (withoutEqualIn C P) hsub
  refine ⟨next, ?_, ?_⟩
  · rw [diffCalls, replayCalls_append, replayCalls_adds]
    exact hnext
  · intro x
    have h1 := hcount x
    rw [List.count_append, List.count_reverse] at h1
    have h2 := count_readerKey_split P C x
    have h3 := count_readerKey_split C P x
    have h4 := hcover x
    have h5 := keepsReaders_count P C hkeep x
    omega

/-- The status and the stored list of a rescan do not depend on the reader factory. -/
theorem search_stored_eq {σ τ : Type} (rf : ReaderFactory σ) (rf2 : ReaderFactory τ)
    (host : HostView) (S : HPDeviceList) (reg : σ) (reg2 : τ) (out : Outcome σ)
    (h : HPSearchHotPluggables rf host S reg = some out) :
    ∃ out2, HPSearchHotPluggables rf2 host S reg2 = some out2
      ∧ out2.status = out.status ∧ out2.sDeviceList = out.sDeviceList := by
  unfold HPSearchHotPluggables at h ⊢
  cases hload : HPDriversGetFromDirectory host.dropDir with
  | none =>
    simp only [hload, Option.some.injEq] at h
    subst h
    exact ⟨⟨1, S, reg2⟩, rfl, rfl, rfl⟩
  | some drivers =>
    simp only [hload] at h
    cases husb : HPDriversMatchUSBDevices drivers [] host.usb with
    | none => simp [husb] at h
    | some r1 =>
      obtain ⟨usbStat, usbDevices⟩ := r1
      simp only [husb] at h
      by_cases hu : usbStat = 0
      · subst hu
        cases hpcc : HPDriversMatchPCCardDevices drivers usbDevices host.pccard with
        | none => simp [hpcc] at h
        | some r2 =>
          obtain ⟨pccStat, devices⟩ := r2
          by_cases hp : pccStat = 0
          · subst hp
            simp [hpcc] at h
            subst h
            exact ⟨⟨0, devices, removeLoop rf2 devices S (addLoop rf2 S devices reg2)⟩,
              by simp [husb, hpcc], rfl, rfl⟩
          · simp [hpcc, hp] at h
            subst h
            exact ⟨⟨-1, S, reg2⟩, by simp [husb, hpcc, hp], rfl, rfl⟩
      · simp [hu] at h
        subst h
        exact ⟨⟨-1, S, reg2⟩, by simp [husb, hu], rfl, rfl⟩

/-- Rescans replayed one after the other: from any state whose added pairs cover the stored
list, the calls stay in order as long as every rescan keeps the readers of the devices that
stay attached. -/
theorem runRescans_replay {σ : Type} (rf : ReaderFactory σ) (hosts : List HostView)
    (S : HPDeviceList) (st : σ) (log : List ReaderCall)
    (added : List (Option String × Nat)) (final : HPDeviceList × (σ × List ReaderCall))
    (hlog : replayCalls [] log = some added)
    (hcover : ∀ x, List.count x (S.map readerKey) ≤ List.count x added)
    (hkeep : keptThroughout hosts S = true)
    (hrun : runRescans rf.recording hosts S (st, log) = some final) :
    ∃ last, replayCalls [] final.2.2 = some last := by
  induction hosts generalizing S st log added with
  | nil =>
    simp only [runRescans, Option.some.injEq] at hrun
    subst hrun
    exact ⟨added, hlog⟩
  | cons host later ih =>
    rw [runRescans] at hrun
    cases hsearch : HPSearchHotPluggables rf.recording host S (st, log) with
    | none => simp [hsearch] at hrun
    | some out =>
      simp only [hsearch] at hrun
      obtain ⟨out0, hout0, _, hlist0⟩ :=
        search_stored_eq rf.recording (ReaderFactory.constant 0) host S (st, log) () out
          hsearch
      rw [keptThroughout, hout0] at hkeep
      simp only [Bool.and_eq_true, hlist0] at hkeep
      rcases search_cases rf.recording host S (st, log) out hsearch with
        h1 | ⟨drivers, usbDevices, _, _, _, _, hreg⟩
      · rw [h1.2.1] at hkeep
        rw [h1.2.1, h1.2.2] at hrun
        exact ih S st log added hlog hcover hkeep.2 hrun
      · obtain ⟨next, hnext, hcover2⟩ :=
          replayCalls_diff added S out.sDeviceList hcover hkeep.1
        rw [diff_recording] at hreg
        rw [hreg] at hrun
        refine ih out.sDeviceList _ _ next ?_ hcover2 hkeep.2 hrun
        rw [replayCalls_append, hlog]
        exact hnext

/-- C11, amended: over every sequence of rescans that starts from the empty list, each
`RFRemoveReader(name, port)` call comes after an `RFAddReader` call with the same name and
port that no `RFRemoveReader` in between has taken, for every sequence of catalogs and
devices in which no reader changes its name or gains a copy while its device stays attached:
at every rescan, each name and port pair carried by the matched records that have an
`HPDeviceEquals`-equal record in the stored list is carried at least as often by the stored
records that have an equal record in the matched list. Names may change while the device is
detached, and records that are equal from the time they appear to the time they go are
paired as well. -/
theorem removes_follow_adds_while_readers_are_kept {σ : Type} (rf : ReaderFactory σ)
    (hosts : List HostView) (st : σ) (final : HPDeviceList × (σ × List ReaderCall))
    (hkeep : keptThroughout hosts [] = true)
    (hrun : runRescans rf.recording hosts [] (st, []) = some final) :
    removesFollowAdds final.2.2 = true := by
  obtain ⟨last, hlast⟩ := runRescans_replay rf hosts [] st [] [] final rfl (by simp) hkeep
    hrun
  simp [removesFollowAdds, hlast]

/-- Witness of C11, amended: the eight rescans of `witnessRescans`, with a catalog of two
descriptors for one device, a failed rescan, a rename while no device is attached, and two
devices of one vendor, product and address on the two buses. -/
theorem removes_follow_adds_while_readers_are_kept_witness :
    keptThroughout witnessRescans [] = true
      ∧ runRescans recorder witnessRescans [] ((), []) = some ([], ((), witnessCalls))
      ∧ removesFollowAdds witnessCalls = true := by
  have h1 : keptThroughout witnessRescans [] = true := by decide
  have h2 : runRescans recorder witnessRescans [] ((), []) = some ([], ((), witnessCalls)) := by
    decide
  exact ⟨h1, h2,
    removes_follow_adds_while_readers_are_kept (ReaderFactory.constant 0) witnessRescans ()
      ([], ((), witnessCalls)) h1 h2⟩

/-- Counterexample to C11 as stated: the `readerX` device is attached, the bundle is then
renamed to `ReaderY` while the device stays attached, and the device is detached. The three
rescans succeed; the only `RFAddReader` carries the name `ReaderX`, the rename makes no call,
and the `RFRemoveReader` carries the name `ReaderY`, which was never added. -/
theorem renamed_driver_is_removed_under_new_name :
    runRescans recorder [hostAttached, hostRenamedAttached, hostRenamedDetached] [] ((), [])
        = some ([], ((), [ReaderCall.RFAddReader (some "ReaderX") 0x200001 (some "/a"),
            ReaderCall.RFRemoveReader (some "ReaderY") 0x200001]))
      ∧ HPSearchHotPluggables recorder hostRenamedAttached [readerXAt1] ((), [])
        = some ⟨0, [⟨⟨0x04E6, 0x5116, some "ReaderY", some "/a"⟩, 1⟩], ((), [])⟩
      ∧ removesFollowAdds [ReaderCall.RFAddReader (some "ReaderX") 0x200001 (some "/a"),
          ReaderCall.RFRemoveReader (some "ReaderY") 0x200001] = false := by
  decide

/-- Two equal records in the stored list are removed twice after one `RFAddReader`: with a
second descriptor of the same vendor, product and name appearing while the device is
attached, and with a second device of the same vendor, product and address appearing on the
other bus. -/
theorem duplicate_records_are_removed_twice :
    runRescans recorder [hostAttached, hostTwinDrivers, hostDetached] [] ((), [])
        = some ([], ((), [ReaderCall.RFAddReader (some "ReaderX") 0x200001 (some "/a"),
            ReaderCall.RFRemoveReader (some "ReaderX") 0x200001,
            ReaderCall.RFRemoveReader (some "ReaderX") 0x200001]))
      ∧ runRescans recorder [hostAttached, hostBothBuses, hostDetached] [] ((), [])
        = some ([], ((), [ReaderCall.RFAddReader (some "ReaderX") 0x200001 (some "/a"),
            ReaderCall.RFRemoveReader (some "ReaderX") 0x200001,
            ReaderCall.RFRemoveReader (some "ReaderX") 0x200001]))
      ∧ removesFollowAdds [ReaderCall.RFAddReader (some "ReaderX") 0x200001 (some "/a"),
          ReaderCall.RFRemoveReader (some "ReaderX") 0x200001,
          ReaderCall.RFRemoveReader (some "ReaderX") 0x200001] = false := by
  decide

/-- The three sequences in which a reader changes its name or gains a copy while its device
stays attached are not kept throughout. -/
theorem changed_while_attached_is_not_kept :
    keptThroughout [hostAttached, hostRenamedAttached, hostRenamedDetached] [] = false
      ∧ keptThroughout [hostAttached, hostTwinDrivers, hostDetached] [] = false
      ∧ keptThroughout [hostAttached, hostBothBuses, hostDetached] [] = false := by
  decide

end HotplugMacOSX
